import Mathlib

/-!
Shallow embedding of the AutoBOM validation core (`modules/bom_validator.py`,
`modules/csv_handler.py`, `config.py`).

Cell values are modelled by `Value`: a pandas cell is null (`na`), a string, or
a number; numbers are embedded as exact rationals.  Python's `float(...)`
string conversion is modelled by `parseFloat`; `pd.to_numeric(..., errors =
coerce)` by `toNumeric`.  A pandas `Series` row is an association list from
column name to value; a `DataFrame` is a column-name list plus a row-major
value grid.
-/

namespace AutoBOM

inductive Value where
  | na : Value
  | str (s : String) : Value
  | num (q : ℚ) : Value
deriving DecidableEq, Repr

def Value.isna : Value → Bool
  | .na => true
  | _ => false

/-- Python `str(value)` as far as the validation logic observes it: only
emptiness after stripping and message interpolation depend on it. -/
def Value.toStr : Value → String
  | .na => "nan"
  | .str s => s
  | .num q => toString q

/-- Python `str.strip()`. -/
def pyStrip (s : String) : String :=
  String.mk (((s.data.dropWhile Char.isWhitespace).reverse.dropWhile Char.isWhitespace).reverse)

/-- Python `str.lower()` (ASCII letters, as used by the code). -/
def pyLower (s : String) : String :=
  String.mk (s.data.map Char.toLower)

/-- Python `len(s)`. -/
def pyLen (s : String) : Nat := s.data.length

def digitsVal (l : List Char) : Nat :=
  l.foldl (fun a c => a * 10 + (c.toNat - 48)) 0

/-! Rational arithmetic through `mkRat`, so that concrete runs of the
embedded code reduce inside the kernel; `qAdd_eq`, `qMul_eq`, `qSub_eq` and
`qAbs_eq` below identify these with the ring operations of `ℚ`. -/

def qAdd (a b : ℚ) : ℚ := mkRat (a.num * b.den + b.num * a.den) (a.den * b.den)

def qMul (a b : ℚ) : ℚ := mkRat (a.num * b.num) (a.den * b.den)

def qSub (a b : ℚ) : ℚ := qAdd a (-b)

def qAbs (a : ℚ) : ℚ := if a < 0 then -a else a

def parseExpPart (base : ℚ) : List Char → Option ℚ
  | [] => some base
  | c :: rest =>
    if c = 'e' ∨ c = 'E' then
      let p : Bool × List Char :=
        match rest with
        | '+' :: t => (false, t)
        | '-' :: t => (true, t)
        | t => (false, t)
      if !p.2.isEmpty && p.2.all Char.isDigit then
        some (qMul base
          (if p.1 then mkRat 1 (10 ^ digitsVal p.2) else ((10 ^ digitsVal p.2 : ℕ) : ℚ)))
      else none
    else none

def parseMantissa (cs : List Char) : Option (ℚ × List Char) :=
  let ip := cs.takeWhile Char.isDigit
  let rest := cs.dropWhile Char.isDigit
  match rest with
  | '.' :: rest2 =>
      let fp := rest2.takeWhile Char.isDigit
      let rest3 := rest2.dropWhile Char.isDigit
      if ip.isEmpty && fp.isEmpty then none
      else some (qAdd (digitsVal ip : ℚ) (mkRat (digitsVal fp) (10 ^ fp.length)), rest3)
  | _ => if ip.isEmpty then none else some ((digitsVal ip : ℚ), rest)

/-- Python `float(s)` on a string: optional surrounding whitespace, optional
sign, decimal mantissa, optional exponent; failure is `none` (the code catches
`ValueError`). -/
def parseFloat (s : String) : Option ℚ :=
  match (pyStrip s).data with
  | [] => none
  | cs =>
    let p : Bool × List Char :=
      match cs with
      | '+' :: t => (false, t)
      | '-' :: t => (true, t)
      | t => (false, t)
    match parseMantissa p.2 with
    | none => none
    | some (m, rest) =>
      match parseExpPart m rest with
      | none => none
      | some q => some (if p.1 then -q else q)

/-- Python `float(value)` on a cell reached through the validators (the code
only applies it to non-null cells; on strings it is `parseFloat`). -/
def pyFloat : Value → Option ℚ
  | .na => none
  | .num q => some q
  | .str s => parseFloat s

/-- `pd.to_numeric(x, errors=coerce)` on one cell: parse failures and nulls
become null. -/
def toNumeric : Value → Value
  | .na => .na
  | .num q => .num q
  | .str s =>
    match parseFloat s with
    | some q => .num q
    | none => .na

inductive Sev where
  | errors : Sev
  | warnings : Sev
  | info : Sev
deriving DecidableEq, Repr

structure Issue where
  type : String
  column : Option String
  message : String
  row : Option Nat
  value : Option Value
deriving DecidableEq, Repr

structure Report where
  errors : List Issue
  warnings : List Issue
  info : List Issue
deriving DecidableEq, Repr

def sq : String := String.mk [Char.ofNat 39]

def quoted (s : String) : String := sq ++ s ++ sq

/-- Python `f-string` `:.2f` formatting of a rational. -/
def fmt2 (q : ℚ) : String :=
  let c : Int := round (q * 100)
  let a := c.natAbs
  (if c < 0 then "-" else "") ++ toString (a / 100) ++ "." ++
    (if a % 100 < 10 then "0" else "") ++ toString (a % 100)

def REQUIRED_COLUMNS : List String := ["part_number", "description", "quantity"]

def OPTIONAL_COLUMNS : List String :=
  ["unit_cost", "total_cost", "supplier", "manufacturer",
   "manufacturer_part_number", "lead_time_days", "category",
   "datasheet_url", "notes"]

def ALL_COLUMNS : List String := REQUIRED_COLUMNS ++ OPTIONAL_COLUMNS

/-- `^[A-Za-z0-9\-_.]+$` character class. -/
def partNumberChar (c : Char) : Bool :=
  c.isAlphanum || c = '-' || c = '_' || c = '.'

def validatePartNumber (v : Value) : Option (Sev × String) :=
  let value := pyStrip v.toStr
  if pyLen value < 2 then
    some (.warnings, "Part number " ++ quoted value ++ " seems too short")
  else if pyLen value > 50 then
    some (.warnings, "Part number " ++ quoted value ++ " seems too long")
  else if !value.data.all partNumberChar then
    some (.warnings, "Part number " ++ quoted value ++ " contains unusual characters")
  else none

def validateDescription (v : Value) : Option (Sev × String) :=
  let value := pyStrip v.toStr
  if pyLen value < 5 then
    some (.warnings, "Description " ++ quoted value ++ " seems too short")
  else if pyLen value > 200 then
    some (.warnings, "Description is very long (" ++ toString (pyLen value) ++ " characters)")
  else none

def validateQuantity (v : Value) : Option (Sev × String) :=
  match pyFloat v with
  | none => some (.errors, "Quantity " ++ quoted v.toStr ++ " is not a valid number")
  | some qty =>
    if qty ≤ 0 then
      some (.errors, "Quantity must be positive, got " ++ toString qty)
    else if qty.den ≠ 1 && qty > 1 then
      some (.warnings, "Fractional quantity " ++ toString qty ++ " - is this intentional?")
    else if qty > 10000 then
      some (.warnings, "Very large quantity " ++ toString qty ++ " - please verify")
    else none

def validateUnitCost (v : Value) : Option (Sev × String) :=
  match pyFloat v with
  | none => some (.errors, "Unit cost " ++ quoted v.toStr ++ " is not a valid number")
  | some cost =>
    if cost < 0 then
      some (.errors, "Unit cost cannot be negative, got " ++ toString cost)
    else if cost = 0 then
      some (.warnings, "Unit cost is zero - is this correct?")
    else if cost > 10000 then
      some (.warnings, "Very high unit cost $" ++ toString cost ++ " - please verify")
    else none

def validateTotalCost (v : Value) : Option (Sev × String) :=
  match pyFloat v with
  | none => some (.errors, "Total cost " ++ quoted v.toStr ++ " is not a valid number")
  | some cost =>
    if cost < 0 then
      some (.errors, "Total cost cannot be negative, got " ++ toString cost)
    else none

def validateSupplier (v : Value) : Option (Sev × String) :=
  let value := pyStrip v.toStr
  if pyLen value < 2 then
    some (.warnings, "Supplier name " ++ quoted value ++ " seems too short")
  else none

def validateManufacturer (v : Value) : Option (Sev × String) :=
  let value := pyStrip v.toStr
  if pyLen value < 2 then
    some (.warnings, "Manufacturer name " ++ quoted value ++ " seems too short")
  else none

def validateManufacturerPartNumber (v : Value) : Option (Sev × String) :=
  let value := pyStrip v.toStr
  if pyLen value < 2 then
    some (.warnings, "Manufacturer part number " ++ quoted value ++ " seems too short")
  else none

def validateLeadTime (v : Value) : Option (Sev × String) :=
  match pyFloat v with
  | none => some (.errors, "Lead time " ++ quoted v.toStr ++ " is not a valid number")
  | some days =>
    if days < 0 then
      some (.errors, "Lead time cannot be negative, got " ++ toString days)
    else if days > 365 then
      some (.warnings, "Very long lead time (" ++ toString days ++ " days) - please verify")
    else none

def startsWithL (p l : List Char) : Bool :=
  match p, l with
  | [], _ => true
  | _ :: _, [] => false
  | a :: as, b :: bs => a == b && startsWithL as bs

/-- Python substring containment `p in l` on character lists. -/
def hasSubL (p : List Char) : List Char → Bool
  | [] => p.isEmpty
  | c :: t => startsWithL p (c :: t) || hasSubL p t

def commonCategories : List String :=
  ["Resistor", "Capacitor", "Inductor", "Diode", "Transistor",
   "Integrated Circuit", "IC", "Connector", "Switch", "LED",
   "Crystal", "Oscillator", "Transformer", "Relay", "Fuse",
   "Battery", "Cable", "PCB", "Mechanical", "Hardware"]

def validateCategory (v : Value) : Option (Sev × String) :=
  let value := pyStrip v.toStr
  if pyLen value < 2 then
    some (.warnings, "Category " ++ quoted value ++ " seems too short")
  else if !commonCategories.any (fun cat => hasSubL (pyLower cat).data (pyLower value).data) then
    some (.info, "Category " ++ quoted value ++ " is not a common electronics category")
  else none

def splitDotAux (acc : List Char) : List Char → List (List Char)
  | [] => [acc.reverse]
  | c :: t => if c = '.' then acc.reverse :: splitDotAux [] t else splitDotAux (c :: acc) t

/-- One DNS label of the URL regex: `[A-Z0-9](?:[A-Z0-9-]{0,61}[A-Z0-9])?`
(after lowercasing). -/
def urlLabelOk (l : List Char) : Bool :=
  decide (1 ≤ l.length) && decide (l.length ≤ 63) &&
    (match l.head? with | some c => c.isAlphanum | none => false) &&
    (match l.getLast? with | some c => c.isAlphanum | none => false) &&
    l.all (fun c => c.isAlphanum || c = '-')

/-- TLD of the URL regex: `[A-Z]{2,6}` (after lowercasing). -/
def urlTldOk (l : List Char) : Bool :=
  decide (2 ≤ l.length) && decide (l.length ≤ 6) && l.all Char.isAlpha

def urlDomainOk (cs : List Char) : Bool :=
  let parts := splitDotAux [] cs
  match parts.getLast? with
  | none => false
  | some lastP =>
    if lastP.isEmpty then
      let ps := parts.dropLast
      match ps.getLast? with
      | none => false
      | some tld => decide (2 ≤ ps.length) && urlTldOk tld && ps.dropLast.all urlLabelOk
    else
      decide (2 ≤ parts.length) && urlTldOk lastP && parts.dropLast.all urlLabelOk

def urlIpv4Ok (cs : List Char) : Bool :=
  let parts := splitDotAux [] cs
  decide (parts.length = 4) &&
    parts.all (fun p => decide (1 ≤ p.length) && decide (p.length ≤ 3) && p.all Char.isDigit)

def urlHostOk (cs : List Char) : Bool :=
  urlDomainOk cs || decide (cs = "localhost".data) || urlIpv4Ok cs

def dropLit : List Char → List Char → Option (List Char)
  | [], cs => some cs
  | _ :: _, [] => none
  | p :: ps, c :: cs => if c = p then dropLit ps cs else none

def urlPathOk : List Char → Bool
  | [] => true
  | [c] => c = '/'
  | c :: rest => (c = '/' || c = '?') && rest.all (fun d => !d.isWhitespace)

/-- The `datasheet_url` regex of the source, compiled by hand:
`^https?://(domain|localhost|ipv4)(:port)?(/?|[/?]\S+)$`, case-insensitive. -/
def matchUrl (s : String) : Bool :=
  let cs := s.data.map Char.toLower
  match dropLit "http".data cs with
  | none => false
  | some r1 =>
    let r2 := match dropLit "s".data r1 with | some t => t | none => r1
    match dropLit "://".data r2 with
    | none => false
    | some r3 =>
      let host := r3.takeWhile (fun c => !(c = ':' || c = '/' || c = '?'))
      let rest := r3.dropWhile (fun c => !(c = ':' || c = '/' || c = '?'))
      urlHostOk host &&
        (match rest with
         | ':' :: pr =>
           !(pr.takeWhile Char.isDigit).isEmpty && urlPathOk (pr.dropWhile Char.isDigit)
         | r => urlPathOk r)

def validateUrl (v : Value) : Option (Sev × String) :=
  let value := pyStrip v.toStr
  if !matchUrl value then
    some (.warnings, "URL " ++ quoted value ++ " may not be valid")
  else none

def validateNotes (v : Value) : Option (Sev × String) :=
  let value := pyStrip v.toStr
  if pyLen value > 500 then
    some (.warnings, "Notes are very long (" ++ toString (pyLen value) ++ " characters)")
  else none

/-- The `validation_rules` dispatch table of `BOMValidator.__init__`. -/
def validation_rules : List (String × (Value → Option (Sev × String))) :=
  [("part_number", validatePartNumber),
   ("description", validateDescription),
   ("quantity", validateQuantity),
   ("unit_cost", validateUnitCost),
   ("total_cost", validateTotalCost),
   ("supplier", validateSupplier),
   ("manufacturer", validateManufacturer),
   ("manufacturer_part_number", validateManufacturerPartNumber),
   ("lead_time_days", validateLeadTime),
   ("category", validateCategory),
   ("datasheet_url", validateUrl),
   ("notes", validateNotes)]

/-- A pandas `Series` row as the validators see it: association list from
column label to cell value; `row.lookup c` is `row[c]` and a `none` lookup is
`c not in row.index`. -/
abbrev Row := List (String × Value)

/-- `pd.isna(value) or str(value).strip() == ""`. -/
def valueMissing (v : Value) : Bool := v.isna || pyStrip v.toStr == ""

def fieldIssue (column message : String) (row_index : Nat) (v : Value) : Issue :=
  ⟨"field_validation", some column, message, some row_index, some v⟩

def reqMessage (f : String) : String := "Required field " ++ quoted f ++ " is empty"

def reqIssue (req_col : String) (row_index : Nat) : Issue :=
  ⟨"missing_required", some req_col, reqMessage req_col, some row_index, none⟩

def ccIssue (message : String) (row_index : Nat) : Issue :=
  ⟨"cost_consistency", some "total_cost", message, some row_index, none⟩

def missingColIssue (column : String) : Issue :=
  ⟨"missing_column", some column, "Required column " ++ quoted column ++ " is missing",
   none, none⟩

def dupIssue (row_index : Nat) (v : Value) : Issue :=
  ⟨"duplicate_part", some "part_number", "Duplicate part number " ++ quoted v.toStr,
   some row_index, some v⟩

def varIssue : Issue :=
  ⟨"cost_variance", some "unit_cost", "High variance in unit costs - please review for outliers",
   none, none⟩

def ccMessage (quantity unit_cost total_cost expected : ℚ) : String :=
  "Total cost $" ++ fmt2 total_cost ++ " doesn" ++ sq ++ "t match quantity × unit cost (" ++
    toString quantity ++ " × $" ++ fmt2 unit_cost ++ " = $" ++ fmt2 expected ++ ")"

/-- `_validate_cost_consistency`: applies only when quantity, unit_cost and
total_cost are all present and non-null; a `float` failure on any of them is
swallowed by the `except` clause (`none`). -/
def validateCostConsistency (row : Row) : Option (Sev × String) :=
  match row.lookup "quantity", row.lookup "unit_cost", row.lookup "total_cost" with
  | some qv, some uv, some tv =>
    if !qv.isna && !uv.isna && !tv.isna then
      match pyFloat qv, pyFloat uv, pyFloat tv with
      | some quantity, some unit_cost, some total_cost =>
        let expected := qMul quantity unit_cost
        if qAbs (qSub total_cost expected) > mkRat 1 100 then
          some (.warnings, ccMessage quantity unit_cost total_cost expected)
        else none
      | _, _, _ => none
    else none
  | _, _, _ => none

def emptyReport : Report := ⟨[], [], []⟩

def addIssue (r : Report) : Sev → Issue → Report
  | .errors, i => { r with errors := r.errors ++ [i] }
  | .warnings, i => { r with warnings := r.warnings ++ [i] }
  | .info, i => { r with info := r.info ++ [i] }

def mergeReport (a b : Report) : Report :=
  ⟨a.errors ++ b.errors, a.warnings ++ b.warnings, a.info ++ b.info⟩

/-- Accumulate the issues contributed by each element of `l` into the three
severity buckets, in list order (the shape of every `for` loop of the source
that appends to `results[level]`). -/
def accIssues {α : Type} (g : α → Option (Sev × Issue)) (l : List α) (r0 : Report) : Report :=
  l.foldl (fun acc a =>
    match g a with
    | some (s, i) => addIssue acc s i
    | none => acc) r0

/-- The field-rule step of `validate_row`, for one column of `ALL_COLUMNS`. -/
def issueOfCol (row : Row) (row_index : Nat) (column : String) : Option (Sev × Issue) :=
  match row.lookup column, validation_rules.lookup column with
  | some value, some rule =>
    if !value.isna && !(pyStrip value.toStr == "") then
      match rule value with
      | some (level, message) => some (level, fieldIssue column message row_index value)
      | none => none
    else none
  | _, _ => none

/-- The required-field step of `validate_row`, for one required column. -/
def issueOfReq (row : Row) (row_index : Nat) (req_col : String) : Option (Sev × Issue) :=
  match row.lookup req_col with
  | some value =>
    if valueMissing value then some (.errors, reqIssue req_col row_index) else none
  | none => none

/-- `BOMValidator.validate_row`, with the session-state required-column list
passed explicitly. -/
def validate_row (required : List String) (row : Row) (row_index : Nat) : Report :=
  let r1 := accIssues (issueOfCol row row_index) ALL_COLUMNS emptyReport
  let r2 := accIssues (issueOfReq row row_index) required r1
  match validateCostConsistency row with
  | some (level, message) => addIssue r2 level (ccIssue message row_index)
  | none => r2

/-- A pandas `DataFrame`: shared column labels plus a row-major grid; row
indices are positional (the default `RangeIndex`). -/
structure Df where
  cols : List String
  data : List (List Value)
deriving DecidableEq, Repr

def Df.rowAt (df : Df) (r : List Value) : Row := df.cols.zip r

def Df.colIdx (df : Df) (c : String) : Option Nat := df.cols.findIdx? (· == c)

def Df.getCol (df : Df) (c : String) : List Value :=
  match df.colIdx c with
  | some j => df.data.map (fun r => r.getD j .na)
  | none => []

/-- `df[c] = vals`: overwrite the column when the label exists, else append a
new column at the end. -/
def Df.setCol (df : Df) (c : String) (vals : List Value) : Df :=
  match df.colIdx c with
  | some j => ⟨df.cols, df.data.zipWith (fun r v => r.set j v) vals⟩
  | none => ⟨df.cols ++ [c], df.data.zipWith (fun r v => r ++ [v]) vals⟩

/-- Rectangularity of a dataframe (every row has one cell per column), which
pandas guarantees by construction. -/
def Df.rect (df : Df) : Prop := ∀ r ∈ df.data, r.length = df.cols.length

/-- `Series.duplicated()` (keep first) filtered by `notna()`: row `i` is
reported when its value is non-null and already occurred at a smaller index;
pandas treats NaN as equal to NaN in `duplicated`, but those rows are removed
by the `notna` mask. -/
def dupWarningsCore (vals : List Value) : List Issue :=
  vals.enum.filterMap (fun p =>
    if !p.2.isna && (vals.take p.1).any (fun w => decide (w = p.2)) then
      some (dupIssue p.1 p.2)
    else none)

def qSum (l : List ℚ) : ℚ := l.foldl (· + ·) 0

def meanQ (l : List ℚ) : ℚ := qSum l / (l.length : ℚ)

/-- Sample variance (`ddof = 1`), the square of `Series.std()`. -/
def varQ (l : List ℚ) : ℚ :=
  qSum (l.map (fun x => (x - meanQ l) ^ 2)) / ((l.length : ℚ) - 1)

/-- Exact decision of `costs.std() > costs.mean() * 2` over the non-null
parsed values: with fewer than two values `std` is NaN and the comparison is
false; `std ≥ 0` makes a negative mean always exceeded; otherwise compare
squares. -/
def stdExceedsTwiceMean (l : List ℚ) : Bool :=
  if l.length < 2 then false
  else if meanQ l < 0 then true
  else decide (4 * meanQ l ^ 2 < varQ l)

/-- `pd.to_numeric(df[unit_cost], errors=coerce)` with NaNs dropped, as
`std`/`mean` (skipna) see it. -/
def parsedCosts (df : Df) : List ℚ := (df.getCol "unit_cost").filterMap pyFloat

/-- `BOMValidator._check_data_consistency`. -/
def check_data_consistency (df : Df) : List Issue :=
  (if df.cols.contains "part_number" then dupWarningsCore (df.getCol "part_number") else []) ++
    (if df.cols.contains "unit_cost" then
      if stdExceedsTwiceMean (parsedCosts df) then [varIssue] else []
    else [])

/-- `BOMValidator.validate_dataframe`, with the session-state required-column
list passed explicitly. -/
def validate_dataframe (required_cols : List String) (df : Df) : Report :=
  let base : Report :=
    ⟨required_cols.filterMap (fun column =>
        if df.cols.contains column then none else some (missingColIssue column)),
      [], []⟩
  let afterRows :=
    df.data.enum.foldl
      (fun acc p => mergeReport acc (validate_row required_cols (df.rowAt p.2) p.1)) base
  { afterRows with warnings := afterRows.warnings ++ check_data_consistency df }

/-- State-passing form of a `validate_dataframe` call: the method reads the
dataframe and returns a fresh report, so the post-state dataframe is the
input one. -/
def runValidation (required_cols : List String) (df : Df) : Report × Df :=
  (validate_dataframe required_cols df, df)

/-- `col in row.index and (pd.isna(row[col]) or str(row[col]).strip() == "")`,
the missing-field test of `get_completion_priority`. -/
def rowFieldMissing (row : Row) (col : String) : Bool :=
  match row.lookup col with
  | some v => valueMissing v
  | none => false

def missingRequired (required : List String) (row : Row) : List String :=
  required.filter (fun c => rowFieldMissing row c)

def missingOptional (optional : List String) (row : Row) : List String :=
  optional.filter (fun c => rowFieldMissing row c)

def rowScore (required optional : List String) (row : Row) : Nat :=
  10 * (missingRequired required row).length + (missingOptional optional row).length

def joinSep (sep : String) : List String → String
  | [] => ""
  | [s] => s
  | s :: t => s ++ sep ++ joinSep sep t

def rowLabel (required optional : List String) (row : Row) : String :=
  "Missing: " ++ joinSep ", " (missingRequired required row ++ missingOptional optional row)

/-- The per-row loop of `get_completion_priority`: entries `(idx, label,
score)` for rows with positive score, in row order. -/
def priorityEntries (required optional : List String) (df : Df) : List (Nat × String × Nat) :=
  df.data.enum.filterMap (fun p =>
    if 0 < rowScore required optional (df.rowAt p.2) then
      some (p.1, rowLabel required optional (df.rowAt p.2),
        rowScore required optional (df.rowAt p.2))
    else none)

/-- One step of a stable descending insertion sort on the score component:
the element being inserted comes from earlier in the original list, so it
passes strictly greater scores and stops at the first score `≤` its own. -/
def insertDesc (e : Nat × String × Nat) : List (Nat × String × Nat) → List (Nat × String × Nat)
  | [] => [e]
  | q :: t => if e.2.2 < q.2.2 then q :: insertDesc e t else e :: q :: t

/-- Python `sorted(priorities, key=lambda x: x[2], reverse=True)`: a stable
sort, descending on the score. -/
def sortDesc : List (Nat × String × Nat) → List (Nat × String × Nat)
  | [] => []
  | e :: t => insertDesc e (sortDesc t)

/-- `BOMValidator.get_completion_priority`, with the session-state required
and optional column lists passed explicitly. -/
def get_completion_priority (required optional : List String) (df : Df) :
    List (Nat × String × Nat) :=
  sortDesc (priorityEntries required optional df)

/-- `col.lower().replace(' ', '_').replace('-', '_')`. -/
def normalizeHeader (s : String) : String :=
  String.mk (s.data.map (fun c => if c = ' ' || c = '-' then '_' else c.toLower))

/-- Python substring containment on strings (`a in b`). -/
def strIn (a b : String) : Bool := hasSubL a.data b.data

/-- The inner loop of `get_column_mapping_suggestions`: first original header
whose normalization matches the target by substring in either direction. -/
def findHeaderFor (target : String) : List (String × String) → Option String
  | [] => none
  | (norm, orig) :: t =>
    if strIn target norm || strIn norm target then some orig
    else findHeaderFor target t

/-- `CSVHandler.get_column_mapping_suggestions` over the stored original
column list; the suggestion dict is an association list in insertion order
(one key per matched canonical field). -/
def get_column_mapping_suggestions (original_columns : List String) : List (String × String) :=
  let pairs := original_columns.map (fun h => (normalizeHeader h, h))
  ALL_COLUMNS.filterMap (fun target =>
    (findHeaderFor target pairs).map (fun h => (target, h)))

/-- Elementwise numeric product of two coerced columns; any null operand gives
null, as for pandas `Series` arithmetic. -/
def vMul : Value → Value → Value
  | .num a, .num b => .num (qMul a b)
  | _, _ => .na

/-- `CSVHandler.calculate_total_costs` in state-passing form: the returned
dataframe is the mutated `self.df`. -/
def calculate_total_costs (df : Df) : Bool × Df :=
  if df.cols.contains "quantity" && df.cols.contains "unit_cost" then
    let q := (df.getCol "quantity").map toNumeric
    let df1 := df.setCol "quantity" q
    let u := (df1.getCol "unit_cost").map toNumeric
    let df2 := df1.setCol "unit_cost" u
    (true, df2.setCol "total_cost" (q.zipWith vMul u))
  else (false, df)

def typeCount (t : String) (l : List Issue) : Nat :=
  (l.filter (fun i => i.type == t)).length

/-- The issues of severity `s` contributed by the elements of `l`, in list
order. -/
def sevPick {α : Type} (s : Sev) (g : α → Option (Sev × Issue)) (l : List α) : List Issue :=
  l.filterMap (fun a =>
    match g a with
    | some (s', i) => if s' = s then some i else none
    | none => none)

/-- The substring test of the suggestion loop for one header, either
direction. -/
def headerMatch (target h : String) : Bool :=
  strIn target (normalizeHeader h) || strIn (normalizeHeader h) target

/-- The missing-required-column errors of `validate_dataframe`, one per
required column label absent from the dataframe, in required-column order. -/
def missingColErrors (required_cols : List String) (df : Df) : List Issue :=
  required_cols.filterMap (fun column =>
    if df.cols.contains column then none else some (missingColIssue column))

/-- The per-row reports of `validate_dataframe`, in row order. -/
def rowReports (required_cols : List String) (df : Df) : List Report :=
  df.data.enum.map (fun p => validate_row required_cols (df.rowAt p.2) p.1)

/-- Missing-field test as the SPEC words it ("value is absent/null or its
trimmed string form is empty"): a field wholly absent from the record's index
also counts as missing.  Stated from the spec's words for comparison with the
code's `rowFieldMissing`, which skips absent fields. -/
def specFieldMissing (row : Row) (col : String) : Bool :=
  match row.lookup col with
  | some v => valueMissing v
  | none => true

/-- Completion score as the claims word it: 10 per missing required field
plus 1 per missing optional field, with `specFieldMissing` as the missing
test.  Stated from the spec's words for comparison with the code. -/
def specRowScore (required optional : List String) (row : Row) : Nat :=
  10 * (required.filter (fun c => specFieldMissing row c)).length +
    (optional.filter (fun c => specFieldMissing row c)).length

theorem qAdd_eq (a b : ℚ) : qAdd a b = a + b := by
  have ha : ((a.den : ℚ)) ≠ 0 := by exact_mod_cast a.den_nz
  have hb : ((b.den : ℚ)) ≠ 0 := by exact_mod_cast b.den_nz
  conv_rhs => rw [← Rat.num_div_den a, ← Rat.num_div_den b]
  rw [div_add_div _ _ ha hb, qAdd, Rat.mkRat_eq_div]
  push_cast
  ring_nf

theorem qMul_eq (a b : ℚ) : qMul a b = a * b := by
  rw [qMul, Rat.mkRat_eq_div]
  push_cast
  rw [← div_mul_div_comm, Rat.num_div_den, Rat.num_div_den]

theorem qSub_eq (a b : ℚ) : qSub a b = a - b := by
  rw [qSub, qAdd_eq, ← sub_eq_add_neg]

theorem qAbs_eq (a : ℚ) : qAbs a = |a| := by
  rcases lt_or_ge a 0 with h | h
  · rw [qAbs, if_pos h, abs_of_neg h]
  · rw [qAbs, if_neg (not_lt.mpr h), abs_of_nonneg h]

theorem accIssues_cons {α : Type} (g : α → Option (Sev × Issue)) (a : α) (l : List α)
    (r0 : Report) :
    accIssues g (a :: l) r0 =
      accIssues g l (match g a with | some (s, i) => addIssue r0 s i | none => r0) := by
  simp only [accIssues, List.foldl_cons]

theorem accIssues_eq {α : Type} (g : α → Option (Sev × Issue)) (l : List α) (r0 : Report) :
    accIssues g l r0 =
      ⟨r0.errors ++ sevPick .errors g l,
       r0.warnings ++ sevPick .warnings g l,
       r0.info ++ sevPick .info g l⟩ := by
  induction l generalizing r0 with
  | nil => simp [accIssues, sevPick]
  | cons a t ih =>
    rw [accIssues_cons]
    rcases h : g a with _ | ⟨s, i⟩
    · simp only [ih, sevPick, List.filterMap_cons, h]
    · cases s <;>
        simp only [ih, sevPick, List.filterMap_cons, h, addIssue, reduceIte,
          reduceCtorEq, List.append_assoc, List.singleton_append, if_true, if_false] <;>
        simp

theorem sevPick_mem {α : Type} {s : Sev} {g : α → Option (Sev × Issue)} {l : List α}
    {i : Issue} :
    i ∈ sevPick s g l ↔ ∃ a ∈ l, g a = some (s, i) := by
  simp only [sevPick, List.mem_filterMap]
  constructor
  · rintro ⟨a, ha, hg⟩
    rcases h : g a with _ | ⟨s', j⟩ <;> rw [h] at hg
    · exact absurd hg (by simp)
    · refine ⟨a, ha, ?_⟩
      by_cases hs : s' = s
      · simp [hs] at hg; subst hg; rw [h, hs]
      · simp [hs] at hg
  · rintro ⟨a, ha, hg⟩
    exact ⟨a, ha, by rw [hg]; simp⟩

/-- `validate_row` decomposed into its three passes: field rules over
`ALL_COLUMNS`, required-field emptiness, cost consistency. -/
theorem validate_row_eq (required : List String) (row : Row) (row_index : Nat) :
    validate_row required row row_index =
      ⟨sevPick .errors (issueOfCol row row_index) ALL_COLUMNS ++
         sevPick .errors (issueOfReq row row_index) required,
       sevPick .warnings (issueOfCol row row_index) ALL_COLUMNS ++
         (match validateCostConsistency row with
          | some (_, m) => [ccIssue m row_index]
          | none => []),
       sevPick .info (issueOfCol row row_index) ALL_COLUMNS⟩ := by
  have hreqw : sevPick .warnings (issueOfReq row row_index) required = [] := by
    rw [List.eq_nil_iff_forall_not_mem]
    intro i hi
    rcases sevPick_mem.mp hi with ⟨a, _, hg⟩
    simp only [issueOfReq] at hg
    repeat' split at hg
    all_goals simp at hg
  have hreqi : sevPick .info (issueOfReq row row_index) required = [] := by
    rw [List.eq_nil_iff_forall_not_mem]
    intro i hi
    rcases sevPick_mem.mp hi with ⟨a, _, hg⟩
    simp only [issueOfReq] at hg
    repeat' split at hg
    all_goals simp at hg
  have hcc : ∀ p, validateCostConsistency row = some p → p.1 = Sev.warnings := by
    intro p hp
    simp only [validateCostConsistency] at hp
    repeat' split at hp
    all_goals first
      | (injection hp with h2; rw [← h2])
      | simp at hp
  rcases h : validateCostConsistency row with _ | ⟨s, m⟩
  · simp only [validate_row, accIssues_eq, emptyReport, h]
    simp [hreqw, hreqi]
  · have hs := hcc (s, m) h
    simp only at hs
    subst hs
    simp only [validate_row, accIssues_eq, emptyReport, h, addIssue]
    simp [hreqw, hreqi]

theorem issueOfCol_type {row : Row} {row_index : Nat} {c : String} {s : Sev} {i : Issue}
    (h : issueOfCol row row_index c = some (s, i)) : i.type = "field_validation" := by
  simp only [issueOfCol] at h
  repeat' split at h
  all_goals first
    | (simp only [Option.some.injEq, Prod.mk.injEq] at h
       rw [← h.2]
       rfl)
    | simp at h

theorem issueOfReq_eq {row : Row} {row_index : Nat} {c : String} {s : Sev} {i : Issue}
    (h : issueOfReq row row_index c = some (s, i)) :
    s = .errors ∧ i = reqIssue c row_index := by
  simp only [issueOfReq] at h
  repeat' split at h
  all_goals first
    | (simp only [Option.some.injEq, Prod.mk.injEq] at h
       exact ⟨h.1.symm, h.2.symm⟩)
    | simp at h

theorem findHeaderFor_some {target : String} {hs : List String} {h : String}
    (hf : findHeaderFor target (hs.map fun x => (normalizeHeader x, x)) = some h) :
    ∃ i, hs.get? i = some h ∧ headerMatch target h = true ∧
      ∀ j hj, j < i → hs.get? j = some hj → headerMatch target hj = false := by
  induction hs with
  | nil => simp [findHeaderFor] at hf
  | cons a t ih =>
    simp only [List.map_cons, findHeaderFor] at hf
    split at hf
    case isTrue hcond =>
      injection hf with h2
      subst h2
      refine ⟨0, rfl, by simpa [headerMatch] using hcond, ?_⟩
      intro j hj hjlt
      omega
    case isFalse hcond =>
      rcases ih hf with ⟨i, h1, h2, h3⟩
      refine ⟨i + 1, by simpa using h1, h2, ?_⟩
      intro j hj hjlt hget
      cases j with
      | zero =>
        simp only [List.get?_cons_zero, Option.some.injEq] at hget
        subst hget
        simpa [headerMatch] using hcond
      | succ j2 =>
        exact h3 j2 hj (by omega) (by simpa using hget)

theorem findHeaderFor_none {target : String} {hs : List String}
    (hf : findHeaderFor target (hs.map fun x => (normalizeHeader x, x)) = none) :
    ∀ h ∈ hs, headerMatch target h = false := by
  induction hs with
  | nil => simp
  | cons a t ih =>
    simp only [List.map_cons, findHeaderFor] at hf
    split at hf
    case isTrue hcond => exact absurd hf (by simp)
    case isFalse hcond =>
      intro h hm
      rcases List.mem_cons.mp hm with rfl | hmem
      · simpa [headerMatch] using hcond
      · exact ih hf h hmem

theorem sugg_keys_aux (pairs : List (String × String)) (ts : List String) :
    (ts.filterMap (fun target =>
        (findHeaderFor target pairs).map (fun h => (target, h)))).map Prod.fst =
      ts.filter (fun t => (findHeaderFor t pairs).isSome) := by
  induction ts with
  | nil => rfl
  | cons a t ih =>
    simp only [List.filterMap_cons, List.filter_cons]
    rcases h : findHeaderFor a pairs with _ | x
    · simpa [h] using ih
    · simpa [h] using ih

/-- C5: `get_column_mapping_suggestions` walks canonical fields in schema
order; for each field the first header (in original order) whose
normalization is a substring of the field name or vice versa is chosen, and
scanning stops there; the result has exactly the matched fields as keys
(still in schema order).  Concretely, "Part Number" is suggested for
`part_number` (and for `manufacturer_part_number`), while "Qty" matches
nothing, so `quantity` stays unmapped. -/
theorem C5_column_mapping_first_match (cols : List String) :
    ((get_column_mapping_suggestions cols).map Prod.fst =
      ALL_COLUMNS.filter (fun t =>
        (findHeaderFor t (cols.map fun h => (normalizeHeader h, h))).isSome)) ∧
    (∀ t h, (t, h) ∈ get_column_mapping_suggestions cols →
      t ∈ ALL_COLUMNS ∧ ∃ i, cols.get? i = some h ∧ headerMatch t h = true ∧
        ∀ j hj, j < i → cols.get? j = some hj → headerMatch t hj = false) ∧
    (∀ t, t ∈ ALL_COLUMNS → ∀ h ∈ cols, headerMatch t h = true →
      ∃ h2, (t, h2) ∈ get_column_mapping_suggestions cols) ∧
    (get_column_mapping_suggestions ["Part Number", "Qty"] =
      [("part_number", "Part Number"), ("manufacturer_part_number", "Part Number")]) ∧
    (∀ h, ("quantity", h) ∉ get_column_mapping_suggestions ["Part Number", "Qty"]) := by
  refine ⟨sugg_keys_aux _ _, ?_, ?_, by decide, ?_⟩
  · intro t h hm
    unfold get_column_mapping_suggestions at hm
    rcases List.mem_filterMap.mp hm with ⟨t2, ht2, heq⟩
    rcases hfind : findHeaderFor t2 (cols.map fun x => (normalizeHeader x, x)) with _ | x <;>
      rw [hfind] at heq
    · exact absurd heq (by simp)
    · simp only [Option.map_some', Option.some.injEq, Prod.mk.injEq] at heq
      rcases heq with ⟨rfl, rfl⟩
      exact ⟨ht2, findHeaderFor_some hfind⟩
  · intro t ht h hmem hmatch
    rcases hfind : findHeaderFor t (cols.map fun x => (normalizeHeader x, x)) with _ | x
    · exact absurd hmatch (by simp [findHeaderFor_none hfind h hmem])
    · refine ⟨x, ?_⟩
      unfold get_column_mapping_suggestions
      exact List.mem_filterMap.mpr ⟨t, ht, by rw [hfind]; rfl⟩
  · intro h hmem
    have : ("quantity", h) ∈ ([("part_number", "Part Number"),
        ("manufacturer_part_number", "Part Number")] : List (String × String)) := by
      rw [show ([("part_number", "Part Number"),
          ("manufacturer_part_number", "Part Number")] : List (String × String)) =
          get_column_mapping_suggestions ["Part Number", "Qty"] from by decide]
      exact hmem
    simp only [List.mem_cons, List.not_mem_nil, or_false, Prod.mk.injEq] at this
    rcases this with ⟨hq, _⟩ | ⟨hq, _⟩ <;> exact absurd hq (by decide)

/-- C5 witness: instantiation at the header list ["Part Number", "Qty"],
using the first-match characterization for `part_number`. -/
theorem C5_column_mapping_first_match_witness :
    ("part_number" : String) ∈ ALL_COLUMNS ∧
    ∃ i, (["Part Number", "Qty"] : List String).get? i = some "Part Number" ∧
      headerMatch "part_number" "Part Number" = true ∧
      ∀ j hj, j < i → (["Part Number", "Qty"] : List String).get? j = some hj →
        headerMatch "part_number" hj = false :=
  (C5_column_mapping_first_match ["Part Number", "Qty"]).2.1 "part_number" "Part Number"
    (by decide)

/-- C2: the quantity rule tests its conditions in the fixed order non-numeric,
then `≤ 0`, then fractional-and-greater-than-one, then `> 10000`, returning
the first hit: any unparsable value errors (never warns), any parsed value
`≤ 0` errors, `10000` passes, `10000.01` warns, `0` and `-1` error, "abc"
errors; a negative fraction errors rather than warning, and a fraction above
10000 gets the fractional warning, not the very-large one, showing the order. -/
theorem C2_quantity_rule_order :
    (∀ v : Value, pyFloat v = none →
      (validateQuantity v).map Prod.fst = some Sev.errors) ∧
    (∀ (v : Value) (q : ℚ), pyFloat v = some q → q ≤ 0 →
      (validateQuantity v).map Prod.fst = some Sev.errors) ∧
    validateQuantity (.num 10000) = none ∧
    validateQuantity (.str "10000") = none ∧
    (validateQuantity (.num (mkRat 1000001 100))).map Prod.fst = some Sev.warnings ∧
    (validateQuantity (.str "10000.01")).map Prod.fst = some Sev.warnings ∧
    (validateQuantity (.num 0)).map Prod.fst = some Sev.errors ∧
    (validateQuantity (.str "0")).map Prod.fst = some Sev.errors ∧
    (validateQuantity (.num (-1))).map Prod.fst = some Sev.errors ∧
    (validateQuantity (.str "-1")).map Prod.fst = some Sev.errors ∧
    (validateQuantity (.str "abc")).map Prod.fst = some Sev.errors ∧
    (validateQuantity (.num (mkRat (-1) 2))).map Prod.fst = some Sev.errors ∧
    (validateQuantity (.num (mkRat 3 2))).map Prod.fst = some Sev.warnings ∧
    (validateQuantity (.num 20000)).map Prod.fst = some Sev.warnings ∧
    validateQuantity (.num (mkRat 40001 2)) =
      some (.warnings,
        "Fractional quantity " ++ toString (mkRat 40001 2) ++ " - is this intentional?") := by
  refine ⟨?_, ?_, by decide, by decide, by decide, by decide, by decide, by decide,
    by decide, by decide, by decide, by decide, by decide, by decide, by decide⟩
  · intro v h
    simp [validateQuantity, h]
  · intro v q h hq
    simp [validateQuantity, h, hq]

/-- C2 witness: the general non-numeric and non-positive branches applied at
"abc" and at the parsed value of "-3". -/
theorem C2_quantity_rule_order_witness :
    (validateQuantity (.str "abc")).map Prod.fst = some Sev.errors ∧
    (validateQuantity (.str "-3")).map Prod.fst = some Sev.errors :=
  ⟨C2_quantity_rule_order.1 (.str "abc") (by decide),
   C2_quantity_rule_order.2.1 (.str "-3") (-3) (by decide) (by decide)⟩

theorem pyFloat_some_notna {v : Value} {q : ℚ} (h : pyFloat v = some q) :
    v.isna = false := by
  cases v
  · simp [pyFloat] at h
  · rfl
  · rfl

theorem mkRat_one_hundred : mkRat 1 100 = (1 : ℚ) / 100 := by
  rw [Rat.mkRat_eq_div]
  norm_num

theorem validateCostConsistency_eq {row : Row} {qv uv tv : Value} {q u t : ℚ}
    (hq : row.lookup "quantity" = some qv) (hu : row.lookup "unit_cost" = some uv)
    (ht : row.lookup "total_cost" = some tv)
    (hpq : pyFloat qv = some q) (hpu : pyFloat uv = some u) (hpt : pyFloat tv = some t) :
    validateCostConsistency row =
      if 1 / 100 < |t - q * u| then some (.warnings, ccMessage q u t (q * u)) else none := by
  have hqna := pyFloat_some_notna hpq
  have huna := pyFloat_some_notna hpu
  have htna := pyFloat_some_notna hpt
  simp only [validateCostConsistency, hq, hu, ht, hqna, huna, htna, hpq, hpu, hpt,
    Bool.not_false, Bool.and_self, if_true]
  rw [qAbs_eq, qSub_eq, qMul_eq, mkRat_one_hundred]

theorem validateCostConsistency_some {row : Row} {p : Sev × String}
    (h : validateCostConsistency row = some p) :
    ∃ qv uv tv q u t, row.lookup "quantity" = some qv ∧ row.lookup "unit_cost" = some uv ∧
      row.lookup "total_cost" = some tv ∧ pyFloat qv = some q ∧ pyFloat uv = some u ∧
      pyFloat tv = some t ∧ (1 : ℚ) / 100 < |t - q * u| := by
  rcases hq : row.lookup "quantity" with _ | qv <;>
    rcases hu : row.lookup "unit_cost" with _ | uv <;>
    rcases ht : row.lookup "total_cost" with _ | tv <;>
    simp only [validateCostConsistency, hq, hu, ht] at h
  all_goals try exact Option.noConfusion h
  split at h
  case isFalse => exact Option.noConfusion h
  case isTrue hna =>
    rcases hpq : pyFloat qv with _ | q <;> rcases hpu : pyFloat uv with _ | u <;>
      rcases hpt : pyFloat tv with _ | t <;> simp only [hpq, hpu, hpt] at h
    all_goals try exact Option.noConfusion h
    split at h
    case isFalse => exact Option.noConfusion h
    case isTrue hgap =>
      rw [qAbs_eq, qSub_eq, qMul_eq, mkRat_one_hundred] at hgap
      exact ⟨qv, uv, tv, q, u, t, rfl, rfl, rfl, hpq, hpu, hpt, hgap⟩

theorem typeCount_append (t : String) (l1 l2 : List Issue) :
    typeCount t (l1 ++ l2) = typeCount t l1 + typeCount t l2 := by
  simp [typeCount, List.filter_append]

theorem typeCount_eq_zero {t : String} {l : List Issue}
    (h : ∀ i ∈ l, i.type ≠ t) : typeCount t l = 0 := by
  simp only [typeCount, List.length_eq_zero, List.filter_eq_nil]
  intro i hi
  simp [h i hi]

theorem typeCount_fieldPick (s : Sev) (row : Row) (idx : Nat) (tname : String)
    (hne : "field_validation" ≠ tname) :
    typeCount tname (sevPick s (issueOfCol row idx) ALL_COLUMNS) = 0 := by
  refine typeCount_eq_zero ?_
  intro i hi
  rcases sevPick_mem.mp hi with ⟨a, _, hg⟩
  rw [issueOfCol_type hg]
  exact hne

theorem typeCount_reqPick (required : List String) (row : Row) (idx : Nat) (tname : String)
    (hne : "missing_required" ≠ tname) :
    typeCount tname (sevPick .errors (issueOfReq row idx) required) = 0 := by
  refine typeCount_eq_zero ?_
  intro i hi
  rcases sevPick_mem.mp hi with ⟨a, _, hg⟩
  rw [(issueOfReq_eq hg).2, reqIssue]
  exact hne

/-- The count of cost-consistency warnings in a row report is one when the
cross-check fires and zero when it does not. -/
theorem typeCount_cc_warnings (required : List String) (row : Row) (idx : Nat) :
    typeCount "cost_consistency" (validate_row required row idx).warnings =
      match validateCostConsistency row with
      | some _ => 1
      | none => 0 := by
  rw [validate_row_eq]
  have h0 := typeCount_fieldPick .warnings row idx "cost_consistency" (by decide)
  rcases h : validateCostConsistency row with _ | ⟨s, m⟩
  · simp only [h, List.append_nil]
    exact h0
  · simp only [h]
    rw [typeCount_append, h0]
    simp [typeCount, ccIssue]

/-- C3: when quantity, unit_cost and total_cost are all present and parse as
numbers, `validate_row` emits exactly one cost-consistency warning when
`|total_cost - quantity * unit_cost| > 0.01` and none otherwise; when any
operand is absent (or null) or unparsable, the check is silently skipped, and
in no case does it produce an error or info issue. -/
theorem C3_cost_consistency_check (required : List String) (row : Row) (row_index : Nat) :
    (∀ qv uv tv q u t,
      row.lookup "quantity" = some qv → row.lookup "unit_cost" = some uv →
      row.lookup "total_cost" = some tv →
      pyFloat qv = some q → pyFloat uv = some u → pyFloat tv = some t →
      typeCount "cost_consistency" (validate_row required row row_index).warnings =
        (if (1 : ℚ) / 100 < |t - q * u| then 1 else 0)) ∧
    ((row.lookup "quantity" = none ∨ row.lookup "unit_cost" = none ∨
        row.lookup "total_cost" = none ∨
        (∃ v, row.lookup "quantity" = some v ∧ pyFloat v = none) ∨
        (∃ v, row.lookup "unit_cost" = some v ∧ pyFloat v = none) ∨
        (∃ v, row.lookup "total_cost" = some v ∧ pyFloat v = none)) →
      typeCount "cost_consistency" (validate_row required row row_index).warnings = 0) ∧
    typeCount "cost_consistency" (validate_row required row row_index).errors = 0 ∧
    typeCount "cost_consistency" (validate_row required row row_index).info = 0 := by
  refine ⟨?_, ?_, ?_, ?_⟩
  · intro qv uv tv q u t hq hu ht hpq hpu hpt
    rw [typeCount_cc_warnings, validateCostConsistency_eq hq hu ht hpq hpu hpt]
    by_cases hgap : (1 : ℚ) / 100 < |t - q * u|
    · rw [if_pos hgap, if_pos hgap]
    · rw [if_neg hgap, if_neg hgap]
  · intro hmiss
    rw [typeCount_cc_warnings]
    rcases h : validateCostConsistency row with _ | p
    · rfl
    · exfalso
      rcases validateCostConsistency_some h with
        ⟨qv, uv, tv, q, u, t, hq, hu, ht, hpq, hpu, hpt, _⟩
      rcases hmiss with h1 | h1 | h1 | ⟨v, h1, h2⟩ | ⟨v, h1, h2⟩ | ⟨v, h1, h2⟩
      · rw [h1] at hq; exact absurd hq (by simp)
      · rw [h1] at hu; exact absurd hu (by simp)
      · rw [h1] at ht; exact absurd ht (by simp)
      · rw [h1] at hq; injection hq with hv; subst hv; rw [h2] at hpq
        exact absurd hpq (by simp)
      · rw [h1] at hu; injection hu with hv; subst hv; rw [h2] at hpu
        exact absurd hpu (by simp)
      · rw [h1] at ht; injection ht with hv; subst hv; rw [h2] at hpt
        exact absurd hpt (by simp)
  · rw [validate_row_eq]
    rw [typeCount_append, typeCount_fieldPick .errors row row_index "cost_consistency" (by decide),
      typeCount_reqPick required row row_index "cost_consistency" (by decide)]
  · rw [validate_row_eq]
    exact typeCount_fieldPick .info row row_index "cost_consistency" (by decide)

/-- C3 witness: a row with quantity 2, unit cost 3 and total cost 7 (gap 1)
gets exactly one cost-consistency warning; a row whose quantity is the
unparsable string "x" gets none and no error. -/
theorem C3_cost_consistency_check_witness :
    typeCount "cost_consistency"
      (validate_row REQUIRED_COLUMNS
        [("quantity", Value.num 2), ("unit_cost", Value.num 3), ("total_cost", Value.num 7)]
        0).warnings = 1 ∧
    typeCount "cost_consistency"
      (validate_row REQUIRED_COLUMNS
        [("quantity", Value.str "x"), ("unit_cost", Value.num 3), ("total_cost", Value.num 7)]
        0).warnings = 0 ∧
    typeCount "cost_consistency"
      (validate_row REQUIRED_COLUMNS
        [("quantity", Value.str "x"), ("unit_cost", Value.num 3), ("total_cost", Value.num 7)]
        0).errors = 0 := by
  refine ⟨?_, ?_, ?_⟩
  · have h := (C3_cost_consistency_check REQUIRED_COLUMNS
      [("quantity", Value.num 2), ("unit_cost", Value.num 3), ("total_cost", Value.num 7)]
      0).1 (Value.num 2) (Value.num 3) (Value.num 7) 2 3 7
      (by decide) (by decide) (by decide) rfl rfl rfl
    rw [h, if_pos (by norm_num [abs_of_nonneg])]
  · exact (C3_cost_consistency_check REQUIRED_COLUMNS
      [("quantity", Value.str "x"), ("unit_cost", Value.num 3), ("total_cost", Value.num 7)]
      0).2.1 (Or.inr (Or.inr (Or.inr (Or.inl ⟨Value.str "x", by decide, by decide⟩))))
  · exact (C3_cost_consistency_check REQUIRED_COLUMNS
      [("quantity", Value.str "x"), ("unit_cost", Value.num 3), ("total_cost", Value.num 7)]
      0).2.2.1

/-- C9: a `validate_dataframe` call is a pure function of the dataset and the
schema split: it returns the dataset unchanged, and an immediate second run
on the returned dataset produces the identical report. -/
theorem C9_validation_deterministic (required_cols : List String) (df : Df) :
    (runValidation required_cols df).2 = df ∧
    (runValidation required_cols ((runValidation required_cols df).2)).1 =
      (runValidation required_cols df).1 ∧
    (runValidation required_cols ((runValidation required_cols df).2)).2 = df :=
  ⟨rfl, rfl, rfl⟩

theorem foldl_mergeReport (l : List Report) (b : Report) :
    l.foldl mergeReport b =
      ⟨b.errors ++ (l.map Report.errors).flatten,
       b.warnings ++ (l.map Report.warnings).flatten,
       b.info ++ (l.map Report.info).flatten⟩ := by
  induction l generalizing b with
  | nil => simp
  | cons r t ih =>
    simp only [List.foldl_cons, ih, mergeReport, List.map_cons, List.flatten_cons,
      List.append_assoc]

/-- `validate_dataframe` decomposed into its passes: missing-column errors,
then the merged row reports, then the dataset-consistency warnings. -/
theorem validate_dataframe_eq (required_cols : List String) (df : Df) :
    validate_dataframe required_cols df =
      ⟨missingColErrors required_cols df ++
         ((rowReports required_cols df).map Report.errors).flatten,
       ((rowReports required_cols df).map Report.warnings).flatten ++
         check_data_consistency df,
       ((rowReports required_cols df).map Report.info).flatten⟩ := by
  simp only [validate_dataframe]
  rw [← List.foldl_map (fun p : Nat × List Value =>
      validate_row required_cols (df.rowAt p.2) p.1) mergeReport, foldl_mergeReport]
  rfl

theorem le_fst_of_mem_enumFrom {α : Type} {m : Nat} {t : List α} {q : Nat × α}
    (h : q ∈ t.enumFrom m) : m ≤ q.1 := by
  induction t generalizing m with
  | nil => simp at h
  | cons a t ih =>
    rw [List.enumFrom_cons] at h
    rcases List.mem_cons.mp h with rfl | h2
    · exact Nat.le_refl _
    · exact Nat.le_of_succ_le (ih h2)

theorem enumFrom_fst_pairwise {α : Type} (n : Nat) (l : List α) :
    (l.enumFrom n).Pairwise (fun p q => p.1 < q.1) := by
  induction l generalizing n with
  | nil => simp
  | cons a t ih =>
    rw [List.enumFrom_cons]
    exact List.Pairwise.cons
      (fun q hq => Nat.lt_of_lt_of_le (Nat.lt_succ_self n) (le_fst_of_mem_enumFrom hq))
      (ih (n + 1))

theorem mem_take_iff_get? {α : Type} {v : α} {vals : List α} {n : Nat} :
    v ∈ vals.take n ↔ ∃ j, j < n ∧ vals.get? j = some v := by
  constructor
  · intro h
    rcases List.mem_iff_get?.mp h with ⟨j, hj⟩
    have hjn : j < n := by
      by_contra hge
      have hnone : (vals.take n).get? j = none := by
        rw [List.get?_eq_none]
        calc (vals.take n).length ≤ n := by
              simpa using List.length_take_le n vals
          _ ≤ j := Nat.le_of_not_lt hge
      rw [hnone] at hj
      exact Option.noConfusion hj
    refine ⟨j, hjn, ?_⟩
    rw [← List.get?_take hjn]
    exact hj
  · rintro ⟨j, hjn, hget⟩
    refine List.mem_iff_get?.mpr ⟨j, ?_⟩
    rw [List.get?_take hjn]
    exact hget

/-- Membership in the duplicate warnings: exactly the rows holding a non-null
value that already occurred at a smaller row index. -/
theorem dupWarningsCore_mem {vals : List Value} {i : Issue} :
    i ∈ dupWarningsCore vals ↔
      ∃ n v, i = dupIssue n v ∧ vals.get? n = some v ∧ v.isna = false ∧
        ∃ j, j < n ∧ vals.get? j = some v := by
  unfold dupWarningsCore
  rw [List.mem_filterMap]
  constructor
  · rintro ⟨p, hp, hif⟩
    split at hif
    case isFalse => exact Option.noConfusion hif
    case isTrue hcond =>
      injection hif with h2
      subst h2
      have hget : vals.get? p.1 = some p.2 := List.mem_enum_iff_get?.mp hp
      rw [Bool.and_eq_true] at hcond
      obtain ⟨hna, hany⟩ := hcond
      refine ⟨p.1, p.2, rfl, hget, by simpa using hna, ?_⟩
      rcases List.any_eq_true.mp hany with ⟨w, hw, hww⟩
      have hwv : w = p.2 := of_decide_eq_true hww
      subst hwv
      exact mem_take_iff_get?.mp hw
  · rintro ⟨n, v, rfl, hget, hna, j, hj, hgetj⟩
    refine ⟨(n, v), List.mem_enum_iff_get?.mpr hget, ?_⟩
    have hcond : (!(n, v).2.isna &&
        ((vals.take (n, v).1).any fun w => decide (w = (n, v).2))) = true := by
      rw [Bool.and_eq_true]
      exact ⟨by simp [hna], List.any_eq_true.mpr
        ⟨v, mem_take_iff_get?.mpr ⟨j, hj, hgetj⟩, by simp⟩⟩
    rw [if_pos hcond]

theorem dupWarningsCore_type {vals : List Value} {i : Issue}
    (h : i ∈ dupWarningsCore vals) : i.type = "duplicate_part" := by
  rcases dupWarningsCore_mem.mp h with ⟨n, v, rfl, _⟩
  rfl

/-- Duplicate warnings are listed in strictly increasing row order. -/
theorem dupWarningsCore_sorted (vals : List Value) :
    (dupWarningsCore vals).Pairwise
      (fun a b => ∃ m n, a.row = some m ∧ b.row = some n ∧ m < n) := by
  unfold dupWarningsCore
  rw [List.pairwise_filterMap]
  refine (enumFrom_fst_pairwise 0 vals).imp ?_
  intro p q hlt x hx y hy
  rw [Option.mem_def] at hx hy
  split at hx
  case isFalse => exact Option.noConfusion hx
  case isTrue =>
    injection hx with hx2
    subst hx2
    split at hy
    case isFalse => exact Option.noConfusion hy
    case isTrue =>
      injection hy with hy2
      subst hy2
      exact ⟨p.1, q.1, rfl, rfl, hlt⟩

theorem validate_row_warning_type {required : List String} {row : Row} {idx : Nat} {i : Issue}
    (h : i ∈ (validate_row required row idx).warnings) :
    i.type = "field_validation" ∨ i.type = "cost_consistency" := by
  rw [validate_row_eq] at h
  rcases List.mem_append.mp h with h2 | h2
  · rcases sevPick_mem.mp h2 with ⟨a, _, hg⟩
    exact Or.inl (issueOfCol_type hg)
  · rcases h3 : validateCostConsistency row with _ | ⟨s, m⟩
    · simp only [h3, List.not_mem_nil] at h2
    · simp only [h3] at h2
      rcases List.mem_singleton.mp h2 with rfl
      exact Or.inr rfl

theorem validate_row_error_type {required : List String} {row : Row} {idx : Nat} {i : Issue}
    (h : i ∈ (validate_row required row idx).errors) :
    i.type = "field_validation" ∨ i.type = "missing_required" := by
  rw [validate_row_eq] at h
  rcases List.mem_append.mp h with h2 | h2
  · rcases sevPick_mem.mp h2 with ⟨a, _, hg⟩
    exact Or.inl (issueOfCol_type hg)
  · rcases sevPick_mem.mp h2 with ⟨a, _, hg⟩
    refine Or.inr ?_
    rw [(issueOfReq_eq hg).2]
    rfl

theorem validate_row_info_type {required : List String} {row : Row} {idx : Nat} {i : Issue}
    (h : i ∈ (validate_row required row idx).info) : i.type = "field_validation" := by
  rw [validate_row_eq] at h
  rcases sevPick_mem.mp h with ⟨a, _, hg⟩
  exact issueOfCol_type hg

/-- Filtering the dataset report for duplicate warnings leaves exactly the
duplicate-detection pass output. -/
theorem dup_filter_eq (required_cols : List String) (df : Df) :
    (validate_dataframe required_cols df).warnings.filter
        (fun i => i.type == "duplicate_part") =
      (if df.cols.contains "part_number" then dupWarningsCore (df.getCol "part_number")
       else []) := by
  simp only [validate_dataframe_eq]
  rw [List.filter_append]
  have h1 : ((rowReports required_cols df).map Report.warnings).flatten.filter
      (fun i => i.type == "duplicate_part") = [] := by
    rw [List.filter_eq_nil_iff]
    intro a ha
    rcases List.mem_flatten.mp ha with ⟨l, hl, hal⟩
    rcases List.mem_map.mp hl with ⟨rep, hrep, rfl⟩
    rcases List.mem_map.mp hrep with ⟨p, _, rfl⟩
    rcases validate_row_warning_type hal with ht | ht <;> simp [ht]
  rw [h1, List.nil_append]
  unfold check_data_consistency
  rw [List.filter_append]
  have h2 : (if df.cols.contains "unit_cost" then
      (if stdExceedsTwiceMean (parsedCosts df) then [varIssue] else []) else []).filter
      (fun i => i.type == "duplicate_part") = [] := by
    split
    · split
      · rfl
      · rfl
    · rfl
  have h3 : (if df.cols.contains "part_number" then
      dupWarningsCore (df.getCol "part_number") else []).filter
      (fun i => i.type == "duplicate_part") =
      (if df.cols.contains "part_number" then dupWarningsCore (df.getCol "part_number")
       else []) := by
    split
    · rw [List.filter_eq_self]
      intro a ha
      simp [dupWarningsCore_type ha]
    · rfl
  rw [h2, h3, List.append_nil]

theorem filterMap_ite_none {α β : Type} (p : α → Bool) (g : α → β) (l : List α) :
    l.filterMap (fun c => if p c then none else some (g c)) =
      (l.filter (fun c => !p c)).map g := by
  induction l with
  | nil => rfl
  | cons a t ih =>
    rw [List.filterMap_cons, List.filter_cons]
    cases h : p a
    · simp [h, ih]
    · simp [h, ih]

/-- C4 counterexample: an empty-string part_number is blank (missing in the
sense of the spec) yet non-null, so pandas `duplicated & notna` reports its
second occurrence: the claim that rows with blank part_number values are
never reported is false on the code. -/
theorem C4_blank_duplicate_counterexample :
    valueMissing (Value.str "") = true ∧
    check_data_consistency ⟨["part_number"], [[Value.str ""], [Value.str ""]]⟩ =
      [dupIssue 1 (Value.str "")] ∧
    (dupIssue 1 (Value.str "")).row = some 1 := by
  refine ⟨by decide, by decide, rfl⟩

/-- C4 (amended): among the warnings of `validate_dataframe`, the
duplicate-part warnings are exactly one warning per row whose part_number
value is non-null and equal to some earlier row's value, in row order, each
naming the value and the row; rows with a null part_number are never
reported, while a non-null blank string is an ordinary value whose repeats
are reported.  In particular ["R1","R1","C1"] yields exactly the one
duplicate warning for row index 1 (and none for row 0). -/
theorem C4_duplicate_detection (required_cols : List String) (df : Df) :
    ((validate_dataframe required_cols df).warnings.filter
        (fun i => i.type == "duplicate_part") =
      if df.cols.contains "part_number" then dupWarningsCore (df.getCol "part_number")
      else []) ∧
    (∀ i : Issue, i ∈ dupWarningsCore (df.getCol "part_number") ↔
      ∃ n v, i = dupIssue n v ∧ (df.getCol "part_number").get? n = some v ∧
        v.isna = false ∧ ∃ j, j < n ∧ (df.getCol "part_number").get? j = some v) ∧
    ((dupWarningsCore (df.getCol "part_number")).Pairwise
      (fun a b => ∃ m n, a.row = some m ∧ b.row = some n ∧ m < n)) ∧
    (∀ n v, (dupIssue n v).row = some n ∧ (dupIssue n v).value = some v ∧
      (dupIssue n v).message = "Duplicate part number " ++ quoted v.toStr) ∧
    ((validate_dataframe required_cols
        ⟨["part_number"],
         [[Value.str "R1"], [Value.str "R1"], [Value.str "C1"]]⟩).warnings.filter
        (fun i => i.type == "duplicate_part") =
      [dupIssue 1 (Value.str "R1")]) := by
  refine ⟨dup_filter_eq required_cols df, fun i => dupWarningsCore_mem,
    dupWarningsCore_sorted _, fun n v => ⟨rfl, rfl, rfl⟩, ?_⟩
  rw [dup_filter_eq]
  decide

/-- C7: `validate_dataframe` runs, in order, missing-required-column checks
(one top-level error per absent required column, no row reference), then
`validate_row` over every row in row order, then duplicate detection, then
cost variance; each severity bucket of the report concatenates those pieces
in exactly that order. -/
theorem C7_check_order (required_cols : List String) (df : Df) :
    (validate_dataframe required_cols df =
      ⟨missingColErrors required_cols df ++
         ((rowReports required_cols df).map Report.errors).flatten,
       ((rowReports required_cols df).map Report.warnings).flatten ++
         ((if df.cols.contains "part_number" then dupWarningsCore (df.getCol "part_number")
           else []) ++
          (if df.cols.contains "unit_cost" then
            (if stdExceedsTwiceMean (parsedCosts df) then [varIssue] else [])
           else [])),
       ((rowReports required_cols df).map Report.info).flatten⟩) ∧
    (missingColErrors required_cols df =
      (required_cols.filter (fun c => !df.cols.contains c)).map missingColIssue) ∧
    (∀ i ∈ missingColErrors required_cols df, i.row = none) ∧
    (rowReports required_cols df =
      df.data.enum.map (fun p => validate_row required_cols (df.rowAt p.2) p.1)) := by
  refine ⟨?_, ?_, ?_, rfl⟩
  · rw [validate_dataframe_eq]
    rfl
  · exact filterMap_ite_none (fun c => df.cols.contains c) missingColIssue required_cols
  · intro i hi
    rcases List.mem_filterMap.mp hi with ⟨c, _, hf⟩
    split at hf
    · exact Option.noConfusion hf
    · injection hf with h2
      rw [← h2]
      rfl

theorem var_filter_eq (required_cols : List String) (df : Df) :
    (validate_dataframe required_cols df).warnings.filter
        (fun i => i.type == "cost_variance") =
      (if df.cols.contains "unit_cost" then
        (if stdExceedsTwiceMean (parsedCosts df) then [varIssue] else []) else []) := by
  simp only [validate_dataframe_eq]
  rw [List.filter_append]
  have h1 : ((rowReports required_cols df).map Report.warnings).flatten.filter
      (fun i => i.type == "cost_variance") = [] := by
    rw [List.filter_eq_nil_iff]
    intro a ha
    rcases List.mem_flatten.mp ha with ⟨l, hl, hal⟩
    rcases List.mem_map.mp hl with ⟨rep, hrep, rfl⟩
    rcases List.mem_map.mp hrep with ⟨p, _, rfl⟩
    rcases validate_row_warning_type hal with ht | ht <;> simp [ht]
  rw [h1, List.nil_append]
  unfold check_data_consistency
  rw [List.filter_append]
  have h2 : (if df.cols.contains "part_number" then
      dupWarningsCore (df.getCol "part_number") else []).filter
      (fun i => i.type == "cost_variance") = [] := by
    split
    · rw [List.filter_eq_nil_iff]
      intro a ha
      simp [dupWarningsCore_type ha]
    · rfl
  have h3 : (if df.cols.contains "unit_cost" then
      (if stdExceedsTwiceMean (parsedCosts df) then [varIssue] else []) else []).filter
      (fun i => i.type == "cost_variance") =
      (if df.cols.contains "unit_cost" then
        (if stdExceedsTwiceMean (parsedCosts df) then [varIssue] else []) else []) := by
    split
    · split
      · rfl
      · rfl
    · rfl
  rw [h2, h3, List.nil_append]

/-- `stdExceedsTwiceMean` decides exactly `std > 2 * mean` for the sample
standard deviation: with fewer than two values the comparison is false (the
pandas `std` is NaN), and otherwise it holds iff the real square root of the
sample variance exceeds twice the mean. -/
theorem stdExceeds_iff (l : List ℚ) :
    stdExceedsTwiceMean l = true ↔
      2 ≤ l.length ∧ 2 * (meanQ l : ℝ) < Real.sqrt ((varQ l : ℚ) : ℝ) := by
  unfold stdExceedsTwiceMean
  split
  case isTrue hlen =>
    constructor
    · intro h
      exact absurd h (by simp)
    · rintro ⟨h2, _⟩
      omega
  case isFalse hlen =>
    have hlen2 : 2 ≤ l.length := by omega
    split
    case isTrue hmean =>
      have hm : (meanQ l : ℝ) < 0 := by exact_mod_cast hmean
      constructor
      · intro _
        refine ⟨hlen2, lt_of_lt_of_le ?_ (Real.sqrt_nonneg _)⟩
        nlinarith
      · intro _
        rfl
    case isFalse hmean =>
      have hm : (0 : ℝ) ≤ (meanQ l : ℝ) := by
        have : (0 : ℚ) ≤ meanQ l := le_of_not_lt hmean
        exact_mod_cast this
      have h2m : (0 : ℝ) ≤ 2 * (meanQ l : ℝ) := by linarith
      rw [decide_eq_true_eq]
      constructor
      · intro hv
        refine ⟨hlen2, ?_⟩
        have hv2 : (4 : ℝ) * ((meanQ l : ℝ)) ^ 2 < ((varQ l : ℚ) : ℝ) := by
          exact_mod_cast hv
        rw [show (4 : ℝ) * ((meanQ l : ℝ)) ^ 2 = (2 * (meanQ l : ℝ)) ^ 2 by ring] at hv2
        exact (Real.lt_sqrt h2m).mpr hv2
      · rintro ⟨_, hlt⟩
        have hv2 := (Real.lt_sqrt h2m).mp hlt
        have hv3 : (4 : ℝ) * ((meanQ l : ℝ)) ^ 2 < ((varQ l : ℚ) : ℝ) := by nlinarith
        exact_mod_cast hv3

/-- C8: the cost-variance check parses the unit_cost column (null and
unparsable cells excluded) and the dataset report carries exactly one
dataset-wide cost-variance warning, with no row reference, precisely when at
least two parsed values remain and the sample standard deviation exceeds
twice their mean; otherwise (including when the column is absent) it carries
none. -/
theorem C8_cost_variance (required_cols : List String) (df : Df) :
    ((validate_dataframe required_cols df).warnings.filter
        (fun i => i.type == "cost_variance") =
      if df.cols.contains "unit_cost" ∧ stdExceedsTwiceMean (parsedCosts df) then [varIssue]
      else []) ∧
    varIssue.row = none ∧
    parsedCosts df = (df.getCol "unit_cost").filterMap pyFloat ∧
    (stdExceedsTwiceMean (parsedCosts df) = true ↔
      2 ≤ (parsedCosts df).length ∧
      2 * (meanQ (parsedCosts df) : ℝ) < Real.sqrt ((varQ (parsedCosts df) : ℚ) : ℝ)) := by
  refine ⟨?_, rfl, rfl, stdExceeds_iff _⟩
  rw [var_filter_eq]
  by_cases h1 : df.cols.contains "unit_cost" = true
  · by_cases h2 : stdExceedsTwiceMean (parsedCosts df) = true
    · simp [h1, h2]
    · simp [h1, h2]
  · rw [if_neg h1, if_neg (fun hc => h1 hc.1)]

theorem insertDesc_cons (e q : Nat × String × Nat) (t : List (Nat × String × Nat)) :
    insertDesc e (q :: t) = if e.2.2 < q.2.2 then q :: insertDesc e t else e :: q :: t := rfl

theorem insertDesc_mem {x e : Nat × String × Nat} {l : List (Nat × String × Nat)} :
    x ∈ insertDesc e l ↔ x = e ∨ x ∈ l := by
  induction l with
  | nil => simp [insertDesc]
  | cons q t ih =>
    rw [insertDesc_cons]
    split
    · simp only [List.mem_cons, ih]
      tauto
    · simp [List.mem_cons]

theorem insertDesc_perm (e : Nat × String × Nat) (l : List (Nat × String × Nat)) :
    (insertDesc e l).Perm (e :: l) := by
  induction l with
  | nil => exact List.Perm.refl _
  | cons q t ih =>
    rw [insertDesc_cons]
    split
    · exact (ih.cons q).trans (List.Perm.swap e q t)
    · exact List.Perm.refl _

theorem sortDesc_perm (l : List (Nat × String × Nat)) : (sortDesc l).Perm l := by
  induction l with
  | nil => exact List.Perm.refl _
  | cons e t ih =>
    exact (insertDesc_perm e (sortDesc t)).trans (ih.cons e)

/-- Stable-descending order: in the sorted output every earlier entry has a
strictly larger score, or the same score and a smaller row index, than every
later entry. -/
theorem insertDesc_pairwise {e : Nat × String × Nat} {l : List (Nat × String × Nat)}
    (hl : l.Pairwise (fun a b => b.2.2 < a.2.2 ∨ (a.2.2 = b.2.2 ∧ a.1 < b.1)))
    (he : ∀ q ∈ l, e.1 < q.1) :
    (insertDesc e l).Pairwise (fun a b => b.2.2 < a.2.2 ∨ (a.2.2 = b.2.2 ∧ a.1 < b.1)) := by
  induction l with
  | nil => simp [insertDesc]
  | cons q t ih =>
    rw [List.pairwise_cons] at hl
    obtain ⟨hq, ht⟩ := hl
    rw [insertDesc_cons]
    split
    case isTrue hlt =>
      refine List.Pairwise.cons ?_ (ih ht (fun p hp => he p (List.mem_cons_of_mem q hp)))
      intro x hx
      rcases insertDesc_mem.mp hx with rfl | hxt
      · exact Or.inl hlt
      · exact hq x hxt
    case isFalse hge =>
      refine List.Pairwise.cons ?_ (List.Pairwise.cons hq ht)
      intro x hx
      rcases List.mem_cons.mp hx with hxq | hxt
      · rw [hxq]
        rcases Nat.lt_or_ge q.2.2 e.2.2 with hlt | hge2
        · exact Or.inl hlt
        · exact Or.inr ⟨by omega, he q (List.mem_cons_self q t)⟩
      · rcases hq x hxt with hlt2 | ⟨heq2, hidx⟩
        · exact Or.inl (by omega)
        · rcases Nat.lt_or_ge q.2.2 e.2.2 with hlt3 | hge3
          · exact Or.inl (by omega)
          · refine Or.inr ⟨by omega, ?_⟩
            have hq1 := he q (List.mem_cons_self q t)
            omega

theorem sortDesc_pairwise {l : List (Nat × String × Nat)}
    (h : l.Pairwise (fun a b => a.1 < b.1)) :
    (sortDesc l).Pairwise (fun a b => b.2.2 < a.2.2 ∨ (a.2.2 = b.2.2 ∧ a.1 < b.1)) := by
  induction l with
  | nil => exact List.Pairwise.nil
  | cons e t ih =>
    rw [List.pairwise_cons] at h
    refine insertDesc_pairwise (ih h.2) ?_
    intro q hq
    exact h.1 q ((sortDesc_perm t).mem_iff.mp hq)

theorem priorityEntries_idx_pairwise (required optional : List String) (df : Df) :
    (priorityEntries required optional df).Pairwise (fun a b => a.1 < b.1) := by
  unfold priorityEntries
  rw [List.pairwise_filterMap]
  refine (enumFrom_fst_pairwise 0 df.data).imp ?_
  intro p q hlt x hx y hy
  rw [Option.mem_def] at hx hy
  split at hx
  case isFalse => exact Option.noConfusion hx
  case isTrue =>
    injection hx with hx2
    subst hx2
    split at hy
    case isFalse => exact Option.noConfusion hy
    case isTrue =>
      injection hy with hy2
      subst hy2
      exact hlt

theorem priorityEntries_mem {required optional : List String} {df : Df}
    {x : Nat × String × Nat} :
    x ∈ priorityEntries required optional df ↔
      ∃ r, df.data.get? x.1 = some r ∧ 0 < rowScore required optional (df.rowAt r) ∧
        x = (x.1, rowLabel required optional (df.rowAt r),
             rowScore required optional (df.rowAt r)) := by
  unfold priorityEntries
  rw [List.mem_filterMap]
  constructor
  · rintro ⟨p, hp, hif⟩
    split at hif
    case isFalse => exact Option.noConfusion hif
    case isTrue hpos =>
      injection hif with h2
      subst h2
      exact ⟨p.2, List.mem_enum_iff_get?.mp hp, hpos, rfl⟩
  · rintro ⟨r, hget, hpos, hx⟩
    refine ⟨(x.1, r), List.mem_enum_iff_get?.mpr hget, ?_⟩
    rw [if_pos hpos]
    exact congrArg some hx.symm

theorem rowScore_ge_ten {required optional : List String} {row : Row} {f : String}
    (hf : f ∈ required) (hmiss : rowFieldMissing row f = true) :
    10 ≤ rowScore required optional row := by
  unfold rowScore
  have hmem : f ∈ missingRequired required row := List.mem_filter.mpr ⟨hf, hmiss⟩
  have hpos : 0 < (missingRequired required row).length := List.length_pos_of_mem hmem
  omega

/-- C1 counterexample: a record from which the required field is entirely
absent (not in the row's index) is "missing" that field in the spec's sense,
yet `validate_row` emits no issue at all and the scorer gives the row score 0
and excludes it: both loops guard on `col in row.index`. -/
theorem C1_absent_field_counterexample :
    ([] : Row).lookup "part_number" = none ∧
    specFieldMissing ([] : Row) "part_number" = true ∧
    validate_row ["part_number"] ([] : Row) 0 = ⟨[], [], []⟩ ∧
    get_completion_priority ["part_number"] ["supplier"] ⟨[], [[]]⟩ = [] := by
  exact ⟨rfl, rfl, by decide, by decide⟩

/-- C1 (amended): for every field currently marked required that is present
in the record's index with a null or trimmed-blank value, `validate_row`
returns an error issue naming the field with message
`Required field 'f' is empty`, and the scorer assigns the record a score of
at least 10 and lists it in the priorities of any dataframe containing it; a
required field absent from the index is skipped by both (counterexample). -/
theorem C1_required_field_missing (required optional : List String) (row : Row)
    (row_index : Nat) (f : String) (v : Value)
    (hf : f ∈ required) (hv : row.lookup f = some v) (hmiss : valueMissing v = true) :
    reqIssue f row_index ∈ (validate_row required row row_index).errors ∧
    (reqIssue f row_index).message = "Required field " ++ quoted f ++ " is empty" ∧
    (reqIssue f row_index).column = some f ∧
    10 ≤ rowScore required optional row ∧
    (∀ (df : Df) (i : Nat) (r : List Value), df.data.get? i = some r → df.rowAt r = row →
      ∃ d s, (i, d, s) ∈ get_completion_priority required optional df ∧ 10 ≤ s) := by
  have hmiss2 : rowFieldMissing row f = true := by
    unfold rowFieldMissing
    rw [hv]
    exact hmiss
  refine ⟨?_, rfl, rfl, rowScore_ge_ten hf hmiss2, ?_⟩
  · rw [validate_row_eq]
    refine List.mem_append.mpr (Or.inr ?_)
    exact sevPick_mem.mpr ⟨f, hf, by simp [issueOfReq, hv, hmiss]⟩
  · intro df i r hget hrow
    have hscore : 10 ≤ rowScore required optional (df.rowAt r) := by
      rw [hrow]
      exact rowScore_ge_ten hf hmiss2
    refine ⟨rowLabel required optional (df.rowAt r),
      rowScore required optional (df.rowAt r), ?_, hscore⟩
    refine (sortDesc_perm _).mem_iff.mpr ?_
    exact priorityEntries_mem.mpr ⟨r, hget, by omega, rfl⟩

/-- C1 witness: the instantiation at a one-column dataframe whose only
part_number cell is null. -/
theorem C1_required_field_missing_witness :
    reqIssue "part_number" 0 ∈
      (validate_row ["part_number"] [("part_number", Value.na)] 0).errors ∧
    ∃ d s, (0, d, s) ∈ get_completion_priority ["part_number"] []
        ⟨["part_number"], [[Value.na]]⟩ ∧ 10 ≤ s := by
  have h := C1_required_field_missing ["part_number"] [] [("part_number", Value.na)] 0
    "part_number" Value.na (by decide) (by decide) (by decide)
  exact ⟨h.1, h.2.2.2.2 ⟨["part_number"], [[Value.na]]⟩ 0 [Value.na] rfl rfl⟩

/-- C6 counterexample: with required = [part_number], optional = [supplier]
and a dataframe that has no supplier column, the spec's scoring formula gives
the all-null row 10 + 1 = 11, but the code scores it 10: a field absent from
the row's index is not counted. -/
theorem C6_absent_column_counterexample :
    specRowScore ["part_number"] ["supplier"]
      (Df.rowAt ⟨["part_number"], [[Value.na]]⟩ [Value.na]) = 11 ∧
    get_completion_priority ["part_number"] ["supplier"] ⟨["part_number"], [[Value.na]]⟩ =
      [(0, "Missing: part_number", 10)] := by
  exact ⟨by decide, by decide⟩

/-- C6 (amended): the scorer counts 10 per missing required field and 1 per
missing optional field among the fields present in the row's index (an absent
column adds nothing), excludes rows scoring 0, labels each entry with the
missing fields in schema iteration order (required then optional), and sorts
entries descending by score, preserving original row order on ties.  The
spec's two-row example holds: the row missing `description` (score 10)
precedes the row missing only `supplier` (score 1). -/
theorem C6_priority_scoring (required optional : List String) (df : Df) :
    ((get_completion_priority required optional df).Perm
      (priorityEntries required optional df)) ∧
    (∀ x : Nat × String × Nat, x ∈ get_completion_priority required optional df ↔
      ∃ r, df.data.get? x.1 = some r ∧ 0 < rowScore required optional (df.rowAt r) ∧
        x = (x.1, rowLabel required optional (df.rowAt r),
             rowScore required optional (df.rowAt r))) ∧
    (∀ row : Row, rowScore required optional row =
      10 * (required.filter (fun c => rowFieldMissing row c)).length +
        (optional.filter (fun c => rowFieldMissing row c)).length) ∧
    (∀ row : Row, rowLabel required optional row =
      "Missing: " ++ joinSep ", " (required.filter (fun c => rowFieldMissing row c) ++
        optional.filter (fun c => rowFieldMissing row c))) ∧
    ((get_completion_priority required optional df).Pairwise
      (fun a b => b.2.2 < a.2.2 ∨ (a.2.2 = b.2.2 ∧ a.1 < b.1))) ∧
    (get_completion_priority ["part_number", "description", "quantity"] ["supplier"]
        ⟨["part_number", "description", "quantity", "supplier"],
         [[Value.str "A1", Value.str "rowA desc", Value.num 1, Value.na],
          [Value.str "B1", Value.na, Value.num 2, Value.str "SupB"]]⟩ =
      [(1, "Missing: description", 10), (0, "Missing: supplier", 1)]) := by
  refine ⟨sortDesc_perm _, ?_, fun row => rfl, fun row => rfl,
    sortDesc_pairwise (priorityEntries_idx_pairwise required optional df), by decide⟩
  intro x
  rw [show get_completion_priority required optional df =
      sortDesc (priorityEntries required optional df) from rfl,
    List.Perm.mem_iff (sortDesc_perm _)]
  exact priorityEntries_mem

theorem getD_set_self (v d : Value) : ∀ (r : List Value) (j : Nat), j < r.length →
    (r.set j v).getD j d = v := by
  intro r
  induction r with
  | nil =>
    intro j h
    simp at h
  | cons a t ih =>
    intro j h
    cases j with
    | zero => rfl
    | succ j2 => exact ih j2 (by simpa using h)

theorem getD_set_ne (v d : Value) : ∀ (r : List Value) (j j' : Nat), j ≠ j' →
    (r.set j v).getD j' d = r.getD j' d := by
  intro r
  induction r with
  | nil =>
    intro j j' _
    rfl
  | cons a t ih =>
    intro j j' h
    cases j with
    | zero =>
      cases j' with
      | zero => exact absurd rfl h
      | succ j3 => rfl
    | succ j2 =>
      cases j' with
      | zero => rfl
      | succ j3 => exact ih j2 j3 (by omega)

theorem getD_append_left (d : Value) : ∀ (l1 l2 : List Value) (j : Nat), j < l1.length →
    (l1 ++ l2).getD j d = l1.getD j d := by
  intro l1
  induction l1 with
  | nil =>
    intro l2 j h
    simp at h
  | cons a t ih =>
    intro l2 j h
    cases j with
    | zero => rfl
    | succ j2 => exact ih l2 j2 (by simpa using h)

theorem getD_append_self (v d : Value) : ∀ (l1 : List Value),
    (l1 ++ [v]).getD l1.length d = v := by
  intro l1
  induction l1 with
  | nil => rfl
  | cons a t ih => exact ih

theorem zipWith_set_getD_self (j : Nat) : ∀ (rows : List (List Value)) (vals : List Value),
    (∀ r ∈ rows, j < r.length) → rows.length = vals.length →
    List.zipWith (fun r v => (r.set j v).getD j Value.na) rows vals = vals := by
  intro rows
  induction rows with
  | nil =>
    intro vals _ hl
    cases vals with
    | nil => rfl
    | cons _ _ => simp at hl
  | cons r t ih =>
    intro vals hb hl
    cases vals with
    | nil => simp at hl
    | cons v vs =>
      rw [List.zipWith_cons_cons, getD_set_self v Value.na r j (hb r (List.mem_cons_self r t)),
        ih vs (fun r2 h2 => hb r2 (List.mem_cons_of_mem r h2)) (by simpa using hl)]

theorem zipWith_set_getD_ne (j j' : Nat) (hne : j ≠ j') :
    ∀ (rows : List (List Value)) (vals : List Value), rows.length = vals.length →
    List.zipWith (fun r v => (r.set j v).getD j' Value.na) rows vals =
      rows.map (fun r => r.getD j' Value.na) := by
  intro rows
  induction rows with
  | nil =>
    intro vals _
    rfl
  | cons r t ih =>
    intro vals hl
    cases vals with
    | nil => simp at hl
    | cons v vs =>
      rw [List.zipWith_cons_cons, getD_set_ne v Value.na r j j' hne, List.map_cons,
        ih vs (by simpa using hl)]

theorem zipWith_append_getD_self (n : Nat) : ∀ (rows : List (List Value)) (vals : List Value),
    (∀ r ∈ rows, r.length = n) → rows.length = vals.length →
    List.zipWith (fun r v => (r ++ [v]).getD n Value.na) rows vals = vals := by
  intro rows
  induction rows with
  | nil =>
    intro vals _ hl
    cases vals with
    | nil => rfl
    | cons _ _ => simp at hl
  | cons r t ih =>
    intro vals hb hl
    cases vals with
    | nil => simp at hl
    | cons v vs =>
      have hr : r.length = n := hb r (List.mem_cons_self r t)
      have hhead : (r ++ [v]).getD n Value.na = v := by
        rw [← hr]
        exact getD_append_self v Value.na r
      rw [List.zipWith_cons_cons, hhead,
        ih vs (fun r2 h2 => hb r2 (List.mem_cons_of_mem r h2)) (by simpa using hl)]

theorem zipWith_append_getD_lt (n j : Nat) (hj : j < n) :
    ∀ (rows : List (List Value)) (vals : List Value),
    (∀ r ∈ rows, r.length = n) → rows.length = vals.length →
    List.zipWith (fun r v => (r ++ [v]).getD j Value.na) rows vals =
      rows.map (fun r => r.getD j Value.na) := by
  intro rows
  induction rows with
  | nil =>
    intro vals _ _
    rfl
  | cons r t ih =>
    intro vals hb hl
    cases vals with
    | nil => simp at hl
    | cons v vs =>
      have hr : r.length = n := hb r (List.mem_cons_self r t)
      rw [List.zipWith_cons_cons, getD_append_left Value.na r [v] j (by omega), List.map_cons,
        ih vs (fun r2 h2 => hb r2 (List.mem_cons_of_mem r h2)) (by simpa using hl)]

theorem mem_zipWith {γ : Type} {f : List Value → Value → γ} :
    ∀ {rows : List (List Value)} {vals : List Value} {x : γ},
    x ∈ List.zipWith f rows vals → ∃ r v, r ∈ rows ∧ x = f r v := by
  intro rows
  induction rows with
  | nil =>
    intro vals x h
    simp at h
  | cons r t ih =>
    intro vals x h
    cases vals with
    | nil => simp at h
    | cons v vs =>
      rw [List.zipWith_cons_cons] at h
      rcases List.mem_cons.mp h with rfl | h2
      · exact ⟨r, v, List.mem_cons_self r t, rfl⟩
      · rcases ih h2 with ⟨r2, v2, hr2, hx⟩
        exact ⟨r2, v2, List.mem_cons_of_mem r hr2, hx⟩

theorem colIdx_lt_length {df : Df} {c : String} {j : Nat} (h : df.colIdx c = some j) :
    j < df.cols.length := by
  unfold Df.colIdx at h
  rcases List.findIdx?_eq_some_iff_getElem.mp h with ⟨hlt, _⟩
  exact hlt

theorem colIdx_beq {df : Df} {c : String} {j : Nat} (h : df.colIdx c = some j) :
    ∃ hlt : j < df.cols.length, df.cols[j] = c := by
  unfold Df.colIdx at h
  rcases List.findIdx?_eq_some_iff_getElem.mp h with ⟨hlt, hbeq, _⟩
  exact ⟨hlt, by simpa using hbeq⟩

theorem contains_colIdx_isSome {df : Df} {c : String} (h : df.cols.contains c = true) :
    ∃ j, df.colIdx c = some j := by
  unfold Df.colIdx
  rcases ho : df.cols.findIdx? (· == c) with _ | j
  · rw [List.findIdx?_eq_none_iff] at ho
    have hmem : c ∈ df.cols := by simpa using h
    have := ho c hmem
    simp at this
  · exact ⟨j, rfl⟩

theorem colIdx_ne {df : Df} {c c' : String} {j j' : Nat} (hne : c' ≠ c)
    (h : df.colIdx c = some j) (h' : df.colIdx c' = some j') : j ≠ j' := by
  intro heq
  subst heq
  rcases colIdx_beq h with ⟨hlt, hc⟩
  rcases colIdx_beq h' with ⟨_, hc'⟩
  exact hne (hc'.symm.trans hc)

theorem setCol_cols_of_some {df : Df} {c : String} {j : Nat} (vals : List Value)
    (h : df.colIdx c = some j) : (df.setCol c vals).cols = df.cols := by
  unfold Df.setCol
  rw [h]

theorem setCol_cols_of_none {df : Df} {c : String} (vals : List Value)
    (h : df.colIdx c = none) : (df.setCol c vals).cols = df.cols ++ [c] := by
  unfold Df.setCol
  rw [h]

theorem setCol_data_length {df : Df} {c : String} {vals : List Value}
    (hlen : vals.length = df.data.length) :
    (df.setCol c vals).data.length = df.data.length := by
  unfold Df.setCol
  rcases h : df.colIdx c with _ | j <;> simp [List.length_zipWith, hlen]

theorem setCol_rect {df : Df} {c : String} {vals : List Value} (hrect : df.rect)
    (hlen : vals.length = df.data.length) : (df.setCol c vals).rect := by
  unfold Df.setCol
  rcases h : df.colIdx c with _ | j
  · intro r' hr'
    rcases mem_zipWith hr' with ⟨r, v, hr, rfl⟩
    simp [hrect r hr]
  · intro r' hr'
    rcases mem_zipWith hr' with ⟨r, v, hr, rfl⟩
    simp [hrect r hr]

/-- Writing a column then reading it back yields the written values. -/
theorem getCol_setCol_self {df : Df} {c : String} {vals : List Value} (hrect : df.rect)
    (hlen : vals.length = df.data.length) :
    (df.setCol c vals).getCol c = vals := by
  rcases h : df.colIdx c with _ | j
  · have hcols := setCol_cols_of_none vals h
    unfold Df.getCol
    have hidx : (df.setCol c vals).colIdx c = some df.cols.length := by
      unfold Df.colIdx
      rw [hcols]
      rw [List.findIdx?_append]
      have h0 : df.cols.findIdx? (· == c) = none := h
      rw [h0, Option.none_or]
      simp
    rw [hidx]
    unfold Df.setCol
    rw [h]
    simp only []
    rw [List.map_zipWith]
    exact zipWith_append_getD_self df.cols.length df.data vals
      (fun r hr => hrect r hr) (by omega)
  · unfold Df.getCol
    have hidx : (df.setCol c vals).colIdx c = some j := by
      unfold Df.colIdx
      rw [setCol_cols_of_some vals h]
      exact h
    rw [hidx]
    unfold Df.setCol
    rw [h]
    simp only []
    rw [List.map_zipWith]
    refine zipWith_set_getD_self j df.data vals ?_ (by omega)
    intro r hr
    rw [hrect r hr]
    exact colIdx_lt_length h

/-- Writing one column leaves every other column's values unchanged. -/
theorem getCol_setCol_other {df : Df} {c c' : String} {vals : List Value} (hne : c' ≠ c)
    (hrect : df.rect) (hlen : vals.length = df.data.length) :
    (df.setCol c vals).getCol c' = df.getCol c' := by
  rcases h : df.colIdx c with _ | j
  · -- append case
    have hcols := setCol_cols_of_none vals h
    have hidx : (df.setCol c vals).colIdx c' = df.colIdx c' := by
      unfold Df.colIdx
      rw [hcols, List.findIdx?_append]
      rcases h' : df.colIdx c' with _ | j'
      · have h'0 : df.cols.findIdx? (· == c') = none := h'
        rw [h'0, Option.none_or]
        have : (c == c') = false := by
          simp only [beq_eq_false_iff_ne]
          exact fun hc => hne hc.symm
        simp [List.findIdx?_cons, this]
      · have h'0 : df.cols.findIdx? (· == c') = some j' := h'
        rw [h'0, Option.or_some]
    unfold Df.getCol
    rw [hidx]
    rcases h' : df.colIdx c' with _ | j'
    · rfl
    · unfold Df.setCol
      rw [h]
      simp only []
      rw [List.map_zipWith]
      refine zipWith_append_getD_lt df.cols.length j' ?_ df.data vals
        (fun r hr => hrect r hr) (by omega)
      exact colIdx_lt_length h'
  · -- update case
    have hidx : (df.setCol c vals).colIdx c' = df.colIdx c' := by
      unfold Df.colIdx
      rw [setCol_cols_of_some vals h]
    unfold Df.getCol
    rw [hidx]
    rcases h' : df.colIdx c' with _ | j'
    · rfl
    · unfold Df.setCol
      rw [h]
      simp only []
      rw [List.map_zipWith]
      exact zipWith_set_getD_ne j j' (colIdx_ne hne h h') df.data vals (by omega)

theorem getCol_length {df : Df} {c : String} (h : df.cols.contains c = true) :
    (df.getCol c).length = df.data.length := by
  rcases contains_colIdx_isSome h with ⟨j, hj⟩
  unfold Df.getCol
  rw [hj]
  exact List.length_map _ _

/-- C10: on a rectangular dataframe, `calculate_total_costs` returns true and
coerces quantity and unit_cost in place (unparsable cells become null), sets
total_cost to the elementwise product (null when either operand is null),
leaves all other columns and the row count unchanged — provided both the
quantity and unit_cost columns exist; when either is absent it returns false
with the dataframe untouched. -/
theorem C10_calculate_total_costs (df : Df) (hrect : df.rect) :
    ((df.cols.contains "quantity" && df.cols.contains "unit_cost") = true →
      (calculate_total_costs df).1 = true ∧
      (calculate_total_costs df).2.getCol "quantity" =
        (df.getCol "quantity").map toNumeric ∧
      (calculate_total_costs df).2.getCol "unit_cost" =
        (df.getCol "unit_cost").map toNumeric ∧
      (calculate_total_costs df).2.getCol "total_cost" =
        List.zipWith vMul ((df.getCol "quantity").map toNumeric)
          ((df.getCol "unit_cost").map toNumeric) ∧
      (∀ c, c ≠ "quantity" → c ≠ "unit_cost" → c ≠ "total_cost" →
        (calculate_total_costs df).2.getCol c = df.getCol c) ∧
      (calculate_total_costs df).2.data.length = df.data.length) ∧
    ((df.cols.contains "quantity" && df.cols.contains "unit_cost") = false →
      calculate_total_costs df = (false, df)) ∧
    (∀ v, vMul Value.na v = Value.na) ∧
    (∀ v, vMul v Value.na = Value.na) ∧
    (∀ s, parseFloat s = none → toNumeric (Value.str s) = Value.na) ∧
    (∀ s q, parseFloat s = some q → toNumeric (Value.str s) = Value.num q) ∧
    toNumeric Value.na = Value.na := by
  refine ⟨?_, ?_, fun v => rfl, fun v => by cases v <;> rfl,
    fun s h => by simp [toNumeric, h], fun s q h => by simp [toNumeric, h], rfl⟩
  · intro hcond
    have hq : df.cols.contains "quantity" = true := by
      have h2 := hcond
      rw [Bool.and_eq_true] at h2
      exact h2.1
    have hu : df.cols.contains "unit_cost" = true := by
      have h2 := hcond
      rw [Bool.and_eq_true] at h2
      exact h2.2
    rcases contains_colIdx_isSome hq with ⟨jq, hjq⟩
    simp only [calculate_total_costs, hcond, if_true]
    set q := (df.getCol "quantity").map toNumeric with hqdef
    set df1 := df.setCol "quantity" q with hdf1
    set u := (df1.getCol "unit_cost").map toNumeric with hudef
    set df2 := df1.setCol "unit_cost" u with hdf2
    set t := List.zipWith vMul q u with htdef
    set df3 := df2.setCol "total_cost" t with hdf3
    have hlenq : q.length = df.data.length := by
      rw [hqdef, List.length_map]
      exact getCol_length hq
    have hrect1 : df1.rect := setCol_rect hrect hlenq
    have hlen1 : df1.data.length = df.data.length := setCol_data_length hlenq
    have hcols1 : df1.cols = df.cols := by
      rw [hdf1]
      exact setCol_cols_of_some q hjq
    have hgetu1 : df1.getCol "unit_cost" = df.getCol "unit_cost" := by
      rw [hdf1]
      exact getCol_setCol_other (by decide) hrect hlenq
    have hu1 : df1.cols.contains "unit_cost" = true := by
      rw [hcols1]
      exact hu
    have hlenu : u.length = df1.data.length := by
      rw [hudef, List.length_map]
      exact getCol_length hu1
    have hrect2 : df2.rect := setCol_rect hrect1 hlenu
    have hlen2 : df2.data.length = df1.data.length := setCol_data_length hlenu
    have hgetq2 : df2.getCol "quantity" = q := by
      rw [hdf2, getCol_setCol_other (by decide) hrect1 hlenu, hdf1]
      exact getCol_setCol_self hrect hlenq
    have hgetu2 : df2.getCol "unit_cost" = u := by
      rw [hdf2]
      exact getCol_setCol_self hrect1 hlenu
    have hlent : t.length = df2.data.length := by
      rw [htdef, List.length_zipWith]
      omega
    have hgett3 : df3.getCol "total_cost" = t := by
      rw [hdf3]
      exact getCol_setCol_self hrect2 hlent
    have hgetq3 : df3.getCol "quantity" = q := by
      rw [hdf3, getCol_setCol_other (by decide) hrect2 hlent]
      exact hgetq2
    have hgetu3 : df3.getCol "unit_cost" = u := by
      rw [hdf3, getCol_setCol_other (by decide) hrect2 hlent]
      exact hgetu2
    have hlen3 : df3.data.length = df.data.length := by
      rw [hdf3, setCol_data_length hlent]
      omega
    refine ⟨trivial, hgetq3, ?_, ?_, ?_, hlen3⟩
    · rw [hgetu3, hudef, hgetu1]
    · rw [hgett3, htdef, hudef, hgetu1]
    · intro c hc1 hc2 hc3
      rw [hdf3, getCol_setCol_other hc3 hrect2 hlent, hdf2,
        getCol_setCol_other hc2 hrect1 hlenu, hdf1,
        getCol_setCol_other hc1 hrect hlenq]
  · intro hcond
    have hneg : ¬((df.cols.contains "quantity" && df.cols.contains "unit_cost") = true) := by
      rw [hcond]
      decide
    unfold calculate_total_costs
    rw [if_neg hneg]

/-- C10 witness: a concrete two-row dataframe with a parsable and an
unparsable quantity cell, and a dataframe lacking unit_cost for the false
branch. -/
theorem C10_calculate_total_costs_witness :
    (calculate_total_costs ⟨["quantity", "unit_cost"],
      [[Value.str "2", Value.str "3.5"], [Value.str "x", Value.num 4]]⟩).1 = true ∧
    (calculate_total_costs ⟨["quantity", "unit_cost"],
      [[Value.str "2", Value.str "3.5"], [Value.str "x", Value.num 4]]⟩).2.getCol
        "total_cost" =
      List.zipWith vMul
        ((Df.getCol ⟨["quantity", "unit_cost"],
          [[Value.str "2", Value.str "3.5"], [Value.str "x", Value.num 4]]⟩
            "quantity").map toNumeric)
        ((Df.getCol ⟨["quantity", "unit_cost"],
          [[Value.str "2", Value.str "3.5"], [Value.str "x", Value.num 4]]⟩
            "unit_cost").map toNumeric) ∧
    calculate_total_costs ⟨["quantity"], [[Value.str "2"]]⟩ =
      (false, ⟨["quantity"], [[Value.str "2"]]⟩) := by
  have h := C10_calculate_total_costs ⟨["quantity", "unit_cost"],
    [[Value.str "2", Value.str "3.5"], [Value.str "x", Value.num 4]]⟩
    (by unfold Df.rect; decide)
  have h2 := C10_calculate_total_costs ⟨["quantity"], [[Value.str "2"]]⟩
    (by unfold Df.rect; decide)
  exact ⟨(h.1 (by decide)).1, (h.1 (by decide)).2.2.2.1, h2.2.1 (by decide)⟩

end AutoBOM
